import Mathlib

set_option maxRecDepth 100000
set_option linter.unreachableTactic false
set_option linter.unusedTactic false
set_option linter.unnecessarySeqFocus false

/-!
Verification development for the `Config` class of `src/config.py` in the
`similarity` repository (bilingual sentence alignment/similarity model).

The Python class is embedded shallowly:

* `Settings` mirrors the mutable attribute set built in `Config.__init__`;
* `parse` mirrors `Config.parse` (the token loop over `argv`);
* `inference`, `learn` and `initConfig` mirror `Config.inference`,
  `Config.learn` and the constructor body;
* side effects are made explicit: the file system is a record `FS` of pure
  observation functions, writes are logged in a `List Eff`, `sys.exit` and
  uncaught Python exceptions are the `exited` / `raised` outcomes of
  `PResult`.

The collaborators `Vocab`, `Embeddings` and `check_dataset` live in
`dataset.py`, which is not part of the provided sources; they are modelled
from the spec (see the doc comments on the corresponding `FS` fields).
-/

namespace Similarity

/-- Outcome of running a (possibly exiting) piece of the Python program:
normal return, `sys.exit(code)` after writing `msg` to stderr, or an
uncaught Python exception (e.g. `ValueError` from `int(...)`). -/
inductive PResult (α : Type) where
  | ok (a : α)
  | exited (code : Nat) (msg : String)
  | raised
deriving DecidableEq, Repr

/-- Sequencing of effectful steps: exits and exceptions propagate. -/
def PResult.bind {α β : Type} : PResult α → (α → PResult β) → PResult β
  | .ok a, f => f a
  | .exited c m, _ => .exited c m
  | .raised, _ => .raised

/-- Python truthiness of an optional string attribute
(`None` and the empty string are falsy). -/
def truthyS : Option String → Bool
  | none => false
  | some v => v ≠ ""

/-- Python truthiness of an optional integer attribute
(`None` and `0` are falsy). -/
def truthyI : Option Int → Bool
  | none => false
  | some k => k ≠ 0

/-- Whitespace as stripped by Python `int()` / `float()` conversions. -/
def isPySpace (c : Char) : Bool :=
  c = ' ' || c = '\t' || c = '\n' || c = '\r'

/-- Strip leading and trailing whitespace from a character list. -/
def stripChars (l : List Char) : List Char :=
  ((l.dropWhile isPySpace).reverse.dropWhile isPySpace).reverse

/-- Value of a nonempty all-digit character list, `none` otherwise. -/
def digitsVal : List Char → Option Nat
  | [] => none
  | l =>
    if l.all Char.isDigit then
      some (l.foldl (fun n c => 10 * n + (c.toNat - 48)) 0)
    else none

/-- Python `int(str)`: optional sign then digits, surrounding whitespace
allowed.  (Underscore separators are not modelled; no claim depends on
them.)  `none` models the `ValueError` raised on any other input. -/
def pyInt (str : String) : Option Int :=
  match stripChars str.toList with
  | '-' :: rest => (digitsVal rest).map (fun n => -(n : Int))
  | '+' :: rest => (digitsVal rest).map (fun n => (n : Int))
  | l => (digitsVal l).map (fun n => (n : Int))

/-- Numerator and denominator of an unsigned decimal literal
`digits`, `digits.`, `.digits` or `digits.digits`. -/
def decParts : List Char → Option (Int × Nat)
  | l =>
    match l.span Char.isDigit with
    | (intPart, []) => (digitsVal intPart).map (fun n => ((n : Int), 1))
    | (intPart, '.' :: frac) =>
      if frac.all Char.isDigit && (intPart ≠ [] || frac ≠ []) then
        some (((digitsVal intPart).getD 0 * 10 ^ frac.length
                + (digitsVal frac).getD 0 : Int), 10 ^ frac.length)
      else none
    | _ => none

/-- Python `float(str)` as an exact rational, restricted to plain decimal
notation (exponent, `inf`/`nan` forms are not modelled; no claim exercises
them).  `none` models the `ValueError` on other inputs. -/
def pyFloat (str : String) : Option ℚ :=
  match stripChars str.toList with
  | '-' :: rest => (decParts rest).map (fun p => mkRat (-p.1) p.2)
  | '+' :: rest => (decParts rest).map (fun p => mkRat p.1 p.2)
  | l => (decParts l).map (fun p => mkRat p.1 p.2)

/-- Python `str()` of an optional string (`None` prints as `"None"`). -/
def pyStrOS : Option String → String
  | none => "None"
  | some v => v

/-- Python `str()` of an optional integer. -/
def pyStrOI : Option Int → String
  | none => "None"
  | some k => toString k

/-- Python `str.startswith`. -/
def pyStartswith (s pre : String) : Bool :=
  pre.toList.isPrefixOf s.toList

/-- Parsed tokenization JSON (`json.load` of a `-src_tok`/`-tgt_tok` file);
only its `"vocabulary"` entry is ever read by `config.py`. -/
structure TokConf where
  vocabulary : String
deriving DecidableEq, Repr

/-- The `output` attribute: initially the string from the command line,
replaced during inference setup by `sys.stdout` or an opened file. -/
inductive Out where
  | str (v : String)
  | stdout
  | file (path : String)
deriving DecidableEq, Repr

/-- Logged file-system side effects (`os.makedirs`, `shutil.copyfile`,
writing the topology manifest, `print`). -/
inductive Eff where
  | mkdir (d : String)
  | copy (src : Option String) (dst : String)
  | writeTopology (path : String) (entries : List (String × String))
  | print (msg : String)
deriving DecidableEq, Repr

/-- The attribute set of a `Config` object, in the state it has after
`__init__` assigns the defaults (plus `voc_src`/`voc_tgt`, the vocabulary
objects created later by `learn`/`inference`, recorded here by the path
they were loaded from). -/
structure Settings where
  usage : String
  src_voc : Option String
  src_tok : Option String
  tok_src : Option TokConf
  tgt_voc : Option String
  tgt_tok : Option String
  tok_tgt : Option TokConf
  src_emb : Option String
  tgt_emb : Option String
  src_voc_size : Option Int
  tgt_voc_size : Option Int
  src_emb_size : Option Int
  tgt_emb_size : Option Int
  mdir : Option String
  epoch : Option Int
  trn : Option String
  dev : Option String
  tst : Option String
  output : Out
  emb_src : Option Int
  emb_tgt : Option Int
  src_lstm_size : Int
  tgt_lstm_size : Int
  aggr : String
  r : ℚ
  dropout : ℚ
  lr : ℚ
  lr_decay : ℚ
  lr_method : String
  seq_size : Int
  batch_size : Int
  max_sents : Int
  n_epochs : Int
  last_epoch : Int
  seed : Int
  report_every : Int
  debug : Bool
  mode : String
  quiet : Bool
  show_matrix : Bool
  show_svg : Bool
  show_last : Bool
  show_aggr : Bool
  show_align : Bool
  voc_src : Option String
  voc_tgt : Option String
deriving DecidableEq, Repr

/-- The usage/help text assembled in `__init__` (the `{}` placeholder is
replaced by the program name popped from `argv`). -/
def usageText (prog : String) : String :=
  "usage: " ++ prog ++ "\n" ++
  "*  -mdir          FILE : directory to save/restore models\n\n" ++
  "   -seq_size       INT : sentences larger than this number of src/tgt words are filtered out [50]\n" ++
  "   -batch_size     INT : number of examples per batch [32]\n" ++
  "   -seed           INT : seed for randomness [1234]\n" ++
  "   -debug              : debug mode\n" ++
  "   -h                  : this message\n\n" ++
  " [LEARNING OPTIONS]\n" ++
  "*  -trn           FILE : training data\n" ++
  "   -dev           FILE : validation data\n\n" ++
  "   -src_tok       FILE : if provided, json tokenization options for onmt tokenization, points to vocabulary file\n" ++
  "   -src_voc       FILE : vocabulary of src words (needed to initialize learning)\n" ++
  "   -tgt_tok       FILE : if provided, json tokenization options for onmt tokenization, points to vocabulary file\n" ++
  "   -tgt_voc       FILE : vocabulary of tgt words (needed to initialize learning)\n" ++
  "   -src_emb       FILE : embeddings of src words (needed to initialize learning)\n" ++
  "   -tgt_emb       FILE : embeddings of tgt words (needed to initialize learning)\n" ++
  "   -src_emb_size   INT : size of src embeddings if -src_emb not used\n" ++
  "   -tgt_emb_size   INT : size of tgt embeddings if -tgt_emb not used\n\n" ++
  "   -src_lstm_size  INT : hidden units for src bi-lstm [256]\n" ++
  "   -tgt_lstm_size  INT : hidden units for tgt bi-lstm [256]\n\n" ++
  "   -lr           FLOAT : initial learning rate [1.0]\n" ++
  "   -lr_decay     FLOAT : learning rate decay [0.9]\n" ++
  "   -lr_method   STRING : GD method either: adam, adagrad, adadelta, sgd, rmsprop [adagrad]\n" ++
  "   -aggr          TYPE : aggregation operation: sum, max, lse [lse]\n" ++
  "   -r            FLOAT : r for lse [1.0]\n" ++
  "   -dropout      FLOAT : dropout ratio [0.3]\n" ++
  "   -mode        STRING : mode (alignment, sentence) [alignment]\n" ++
  "   -max_sents      INT : Consider this number of sentences per batch (0 for all) [0]\n" ++
  "   -n_epochs       INT : train for this number of epochs [1]\n" ++
  "   -report_every   INT : report every this many batches [1000]\n\n" ++
  " [INFERENCE OPTIONS]\n" ++
  "   -epoch          INT : epoch to use (mdir]/epoch[epoch], by default the latest one in mdir)\n" ++
  "*  -tst           FILE : testing data\n" ++
  "   -output        FILE : output file [- by default is STDOUT]\n" ++
  "   -q                  : quiet mode, just output similarity score\n" ++
  "   -show_matrix        : output formatted alignment matrix (mode must be alignment)\n" ++
  "   -show_svg           : output alignment matrix using svg-like html format (mode must be alignment)\n" ++
  "   -show_align         : output source/target alignment matrix (mode must be alignment)\n" ++
  "   -show_last          : output source/target last vectors\n" ++
  "   -show_aggr          : output source/target aggr vectors\n\n" ++
  "+ Options marked with * must be set. The other ones have default values.\n" ++
  "+ If -mdir exists in learning mode, learning continues after restoring the last model\n" ++
  "+ Training data is shuffled at every epoch\n" ++
  "+ -show_last, -show_aggr and -show_align can be used at the same time\n"

/-- The attribute values assigned by `__init__` before `self.parse(argv)`
runs (`prog` is the program name popped from `argv` for the usage text). -/
def defaultSettings (prog : String) : Settings where
  usage := usageText prog
  src_voc := none
  src_tok := none
  tok_src := none
  tgt_voc := none
  tgt_tok := none
  tok_tgt := none
  src_emb := none
  tgt_emb := none
  src_voc_size := none
  tgt_voc_size := none
  src_emb_size := none
  tgt_emb_size := none
  mdir := none
  epoch := none
  trn := none
  dev := none
  tst := none
  output := .str "-"
  emb_src := none
  emb_tgt := none
  src_lstm_size := 256
  tgt_lstm_size := 256
  aggr := "lse"
  r := 1
  dropout := mkRat 3 10
  lr := 1
  lr_decay := mkRat 9 10
  lr_method := "adagrad"
  seq_size := 50
  batch_size := 32
  max_sents := 0
  n_epochs := 1
  last_epoch := 0
  seed := 1234
  report_every := 1000
  debug := false
  mode := "alignment"
  quiet := false
  show_matrix := false
  show_svg := false
  show_last := false
  show_aggr := false
  show_align := false
  voc_src := none
  voc_tgt := none

/-- Result of processing one head token of `argv` in `Config.parse`:
continue having consumed only the token, continue having also consumed
the following value, `sys.exit`, or an uncaught `ValueError`. -/
inductive PStep where
  | cont1 (s : Settings)
  | cont2 (s : Settings)
  | ex (code : Nat) (msg : String)
  | raise
deriving DecidableEq, Repr

/-- One iteration of the `while len(argv)` loop of `Config.parse`: `tok`
is the popped head token and `v?` the next token if any.  Each branch of
the Python `elif` chain appears in source order; the guard
`tok == X and len(argv)` of a value-taking branch becomes
`tok = X ∧ v?.isSome`, so that with no value left such a token falls
through to the final unparsed-option branch, exactly as in the source. -/
def pStep (s : Settings) (tok : String) (v? : Option String) : PStep :=
  let v := v?.getD ""
  if tok = "-mdir" ∧ v?.isSome = true then .cont2 {s with mdir := some v}
  else if tok = "-epoch" ∧ v?.isSome = true then
    (match pyInt v with
     | some k => .cont2 {s with epoch := some k}
     | none => .raise)
  else if tok = "-src_tok" ∧ v?.isSome = true then .cont2 {s with src_tok := some v}
  else if tok = "-tgt_tok" ∧ v?.isSome = true then .cont2 {s with tgt_tok := some v}
  else if tok = "-src_voc" ∧ v?.isSome = true then .cont2 {s with src_voc := some v}
  else if tok = "-tgt_voc" ∧ v?.isSome = true then .cont2 {s with tgt_voc := some v}
  else if tok = "-src_emb" ∧ v?.isSome = true then .cont2 {s with src_emb := some v}
  else if tok = "-tgt_emb" ∧ v?.isSome = true then .cont2 {s with tgt_emb := some v}
  else if tok = "-src_voc_size" ∧ v?.isSome = true then
    (match pyInt v with
     | some k => .cont2 {s with src_voc_size := some k}
     | none => .raise)
  else if tok = "-tgt_voc_size" ∧ v?.isSome = true then
    (match pyInt v with
     | some k => .cont2 {s with tgt_voc_size := some k}
     | none => .raise)
  else if tok = "-src_emb_size" ∧ v?.isSome = true then
    (match pyInt v with
     | some k => .cont2 {s with src_emb_size := some k}
     | none => .raise)
  else if tok = "-tgt_emb_size" ∧ v?.isSome = true then
    (match pyInt v with
     | some k => .cont2 {s with tgt_emb_size := some k}
     | none => .raise)
  else if tok = "-trn" ∧ v?.isSome = true then .cont2 {s with trn := some v}
  else if tok = "-dev" ∧ v?.isSome = true then .cont2 {s with dev := some v}
  else if tok = "-tst" ∧ v?.isSome = true then .cont2 {s with tst := some v}
  else if tok = "-output" ∧ v?.isSome = true then .cont2 {s with output := .str v}
  else if tok = "-max_sents" ∧ v?.isSome = true then
    (match pyInt v with
     | some k => .cont2 {s with max_sents := k}
     | none => .raise)
  else if tok = "-debug" then .cont1 {s with debug := true}
  else if tok = "-seed" ∧ v?.isSome = true then
    (match pyInt v with
     | some k => .cont2 {s with seed := k}
     | none => .raise)
  else if tok = "-report_every" ∧ v?.isSome = true then
    (match pyInt v with
     | some k => .cont2 {s with report_every := k}
     | none => .raise)
  else if tok = "-n_epochs" ∧ v?.isSome = true then
    (match pyInt v with
     | some k => .cont2 {s with n_epochs := k}
     | none => .raise)
  else if tok = "-src_lstm_size" ∧ v?.isSome = true then
    (match pyInt v with
     | some k => .cont2 {s with src_lstm_size := k}
     | none => .raise)
  else if tok = "-tgt_lstm_size" ∧ v?.isSome = true then
    (match pyInt v with
     | some k => .cont2 {s with tgt_lstm_size := k}
     | none => .raise)
  else if tok = "-seq_size" ∧ v?.isSome = true then
    (match pyInt v with
     | some k => .cont2 {s with seq_size := k}
     | none => .raise)
  else if tok = "-batch_size" ∧ v?.isSome = true then
    (match pyInt v with
     | some k => .cont2 {s with batch_size := k}
     | none => .raise)
  else if tok = "-aggr" ∧ v?.isSome = true then .cont2 {s with aggr := v}
  else if tok = "-r" ∧ v?.isSome = true then
    (match pyFloat v with
     | some x => .cont2 {s with r := x}
     | none => .raise)
  else if tok = "-dropout" ∧ v?.isSome = true then
    (match pyFloat v with
     | some x => .cont2 {s with dropout := x}
     | none => .raise)
  else if tok = "-lr" ∧ v?.isSome = true then
    (match pyFloat v with
     | some x => .cont2 {s with lr := x}
     | none => .raise)
  else if tok = "-lr_decay" ∧ v?.isSome = true then
    (match pyFloat v with
     | some x => .cont2 {s with lr_decay := x}
     | none => .raise)
  else if tok = "-lr_method" ∧ v?.isSome = true then .cont2 {s with lr_method := v}
  else if tok = "-mode" ∧ v?.isSome = true then .cont2 {s with mode := v}
  else if tok = "-q" then .cont1 {s with quiet := true}
  else if tok = "-show_matrix" then .cont1 {s with show_matrix := true}
  else if tok = "-show_svg" then .cont1 {s with show_svg := true}
  else if tok = "-show_aggr" then .cont1 {s with show_aggr := true}
  else if tok = "-show_last" then .cont1 {s with show_last := true}
  else if tok = "-show_align" then .cont1 {s with show_align := true}
  else if tok = "-h" then .ex 0 s.usage
  else .ex 1 ("error: unparsed " ++ tok ++ " option\n" ++ s.usage)

/-- `Config.parse`: consume the tokens of `argv` left to right, mutating
the settings.  (A `cont2` step with no following value cannot occur: every
value-taking branch requires a present value; the second arm of the
singleton case is therefore unreachable and continues with the empty
list.) -/
def parse (s : Settings) : List String → PResult Settings
  | [] => .ok s
  | [tok] =>
    match pStep s tok none with
    | .cont1 s' => parse s' []
    | .cont2 s' => parse s' []
    | .ex c m => .exited c m
    | .raise => .raised
  | tok :: v :: rest =>
    match pStep s tok (some v) with
    | .cont1 s' => parse s' (v :: rest)
    | .cont2 s' => parse s' rest
    | .ex c m => .exited c m
    | .raise => .raised

/-- A single-quote character, used to reproduce Python error messages. -/
def quo : String := String.singleton (Char.ofNat 39)

/-- Pure observations of the environment a `Config` run interacts with.
`pathExists` and `topology` model `os.path.exists` and reading/splitting
the lines of a topology file (each line `opt val`); `tokJson` models
`json.load` of a tokenization file.

Modelled from the spec: the collaborators of `config.py` living in the
absent `dataset.py` module.  `vocabLen` is `Vocab(path).length` (a
vocabulary "loaded from a file path" that "exposes a size"), with `none`
when construction fails (e.g. `Vocab(None)`); `embedDim` is
`Embeddings(file, voc, size).dim` (embeddings "loaded from file or
synthesized with a given dimension" — the dimension does not depend on the
vocabulary argument), with `none` when construction fails; `checkData`
is `check_dataset(path)` succeeding, with `false` modelling its failure. -/
structure FS where
  pathExists : String → Bool
  topology : String → List (String × String)
  tokJson : String → TokConf
  vocabLen : Option String → Option Int
  embedDim : Option String → Option Int → Option Int
  checkData : Option String → Bool

/-- The model directory as the string Python uses once `-mdir` passed the
truthiness check. -/
def mdirStr (s : Settings) : String := s.mdir.getD ""

/-- The file name holding the src vocabulary inside the model directory:
the `"vocabulary"` entry of `tokenization_src.json` when that file exists,
`vocab_src` otherwise (local variable `src_voc` in `inference`/`learn`). -/
def srcVocName (fs : FS) (m : String) : String :=
  if fs.pathExists (m ++ "/tokenization_src.json") then
    (fs.tokJson (m ++ "/tokenization_src.json")).vocabulary
  else "vocab_src"

/-- Target-side counterpart of `srcVocName`. -/
def tgtVocName (fs : FS) (m : String) : String :=
  if fs.pathExists (m ++ "/tokenization_tgt.json") then
    (fs.tokJson (m ++ "/tokenization_tgt.json")).vocabulary
  else "vocab_tgt"

/-- The argv list rebuilt from a topology file: `['-'+opt, val, ...]` for
each line `opt val`. -/
def topoArgv : List (String × String) → List String
  | [] => []
  | (n, v) :: rest => ("-" ++ n) :: v :: topoArgv rest

/-- The checkpoint index file for epoch `e`. -/
def epochIndexPath (m : String) (e : Nat) : String :=
  m ++ "/epoch" ++ toString e ++ ".index"

/-- The loop `for e in range(fuel, 0, -1)` returning the first (largest)
`e` whose `epoch{e}.index` exists in `m`, if any. -/
def findEpochDown (fs : FS) (m : String) : Nat → Option Nat
  | 0 => none
  | e + 1 =>
    if fs.pathExists (epochIndexPath m (e + 1)) then some (e + 1)
    else findEpochDown fs m e

/-- Epoch resolution at the start of `Config.inference`: when `-epoch` was
not given (or was falsy), search downwards from 999 and exit when nothing
is found. -/
def resolveEpoch (fs : FS) (m : String) (s : Settings) : PResult Settings :=
  if truthyI s.epoch then .ok s
  else
    match findEpochDown fs m 999 with
    | some e => .ok {s with epoch := some (e : Int)}
    | none =>
      .exited 1 ("error: Cannot find epoch in mdir " ++ quo ++ m ++ quo ++ "\n" ++ s.usage)

/-- Output redirection in `Config.inference`: `'-'` becomes `sys.stdout`,
anything else is opened as a file.  (The attribute is always still a
string here; the catch-all arm is unreachable.) -/
def outputResolve (s : Settings) : Settings :=
  match s.output with
  | .str p => if p = "-" then {s with output := .stdout} else {s with output := .file p}
  | _ => s

/-- Middle part of `Config.inference`: dataset check, output redirection,
existence checks for the chosen checkpoint and the topology file, and the
tokenization-file handling, in source order. -/
def inferMid (fs : FS) (m : String) (s : Settings) : PResult Settings :=
  if ¬ fs.checkData s.tst then .raised
  else
  let s1 := outputResolve s
  if ¬ fs.pathExists (m ++ "/epoch" ++ pyStrOI s1.epoch ++ ".index") then
    .exited 1 ("error: -epoch file " ++ m ++ "/epoch" ++ pyStrOI s1.epoch ++
      ".index cannot be find\n")
  else if ¬ fs.pathExists (m ++ "/topology") then
    .exited 1 ("error: topology file: " ++ m ++ "/topology cannot be find\n")
  else
  let s2 :=
    if fs.pathExists (m ++ "/tokenization_src.json") then
      {s1 with tok_src := some (fs.tokJson (m ++ "/tokenization_src.json"))}
    else {s1 with tok_src := none}
  if ¬ fs.pathExists (m ++ "/" ++ srcVocName fs m) then
    .exited 1 ("error: vocab src file: " ++ m ++ "/" ++ srcVocName fs m ++
      " cannot be find\n")
  else
  let s3 :=
    if fs.pathExists (m ++ "/tokenization_tgt.json") then
      {s2 with tok_tgt := some (fs.tokJson (m ++ "/tokenization_tgt.json"))}
    else {s2 with tok_tgt := none}
  .ok s3

/-- Final part of `Config.inference`: re-parse the topology file (which
overrides options passed on the command line) and read both vocabularies. -/
def inferenceFinish (fs : FS) (m srcv tgtv : String) (s : Settings) :
    PResult (Settings × List Eff) :=
  match parse s (topoArgv (fs.topology (m ++ "/topology"))) with
  | .exited c msg => .exited c msg
  | .raised => .raised
  | .ok p =>
    match fs.vocabLen (some (m ++ "/" ++ srcv)) with
    | none => .raised
    | some _ =>
      match fs.vocabLen (some (m ++ "/" ++ tgtv)) with
      | none => .raised
      | some _ =>
        .ok ({p with voc_src := some (m ++ "/" ++ srcv),
                     voc_tgt := some (m ++ "/" ++ tgtv)}, [])

/-- `Config.inference`: sets `dropout = 0.0` and `seq_size = 0` first,
then resolves the epoch, runs the checks, re-parses the topology file and
loads the vocabularies. -/
def inference (fs : FS) (s : Settings) : PResult (Settings × List Eff) :=
  PResult.bind (resolveEpoch fs (mdirStr s) {s with dropout := 0, seq_size := 0}) fun s1 =>
  PResult.bind (inferMid fs (mdirStr s) s1) fun s2 =>
  inferenceFinish fs (mdirStr s) (srcVocName fs (mdirStr s)) (tgtVocName fs (mdirStr s)) s2

/-- Tail of the learning-continuation branch of `Config.learn`: re-parse
the topology file, read the vocabularies and update `last_epoch` to the
largest existing checkpoint epoch. -/
def learnContFinish (fs : FS) (m srcv tgtv : String) (s : Settings) :
    PResult (Settings × List Eff) :=
  match parse s (topoArgv (fs.topology (m ++ "/topology"))) with
  | .exited c msg => .exited c msg
  | .raised => .raised
  | .ok p =>
    match fs.vocabLen (some (m ++ "/" ++ srcv)) with
    | none => .raised
    | some _ =>
      match fs.vocabLen (some (m ++ "/" ++ tgtv)) with
      | none => .raised
      | some _ =>
        let p1 := {p with voc_src := some (m ++ "/" ++ srcv),
                          voc_tgt := some (m ++ "/" ++ tgtv)}
        let p2 :=
          match findEpochDown fs m 999 with
          | some e => {p1 with last_epoch := (e : Int)}
          | none => p1
        .ok (p2, [Eff.print ("learning continuation: last epoch is " ++
          toString p2.last_epoch)])

/-- Learning-continuation branch of `Config.learn` (the model directory
exists): existence checks for the topology file, both vocabulary files and
the checkpoint file, with tokenization handling in between, in source
order.  Note the source resets `self.src_tok` (not `tok_src`) when
`tokenization_src.json` is absent here, and `self.tgt_tok` likewise. -/
def learnCont (fs : FS) (s : Settings) : PResult (Settings × List Eff) :=
  let m := mdirStr s
  if ¬ fs.pathExists (m ++ "/topology") then
    .exited 1 ("error: topology file: " ++ m ++ "/topology cannot be find\n")
  else
  let s1 :=
    if fs.pathExists (m ++ "/tokenization_src.json") then
      {s with tok_src := some (fs.tokJson (m ++ "/tokenization_src.json"))}
    else {s with src_tok := none}
  if ¬ fs.pathExists (m ++ "/" ++ srcVocName fs m) then
    .exited 1 ("error: vocab src file: " ++ m ++ "/" ++ srcVocName fs m ++
      " cannot be find\n")
  else
  let s2 :=
    if fs.pathExists (m ++ "/tokenization_tgt.json") then
      {s1 with tok_tgt := some (fs.tokJson (m ++ "/tokenization_tgt.json"))}
    else {s1 with tgt_tok := none}
  if ¬ fs.pathExists (m ++ "/" ++ tgtVocName fs m) then
    .exited 1 ("error: vocab tgt file: " ++ m ++ "/" ++ tgtVocName fs m ++
      " cannot be find\n")
  else if ¬ fs.pathExists (m ++ "/checkpoint") then
    .exited 1 ("error: checkpoint file: " ++ m ++ "/checkpoint cannot be find\ndelete dir " ++
      m ++ " ???\n")
  else
    learnContFinish fs m (srcVocName fs m) (tgtVocName fs m) s2

/-- `-src_tok` handling in the learning-from-scratch branch: load the
tokenization JSON and default `src_voc` to its vocabulary entry. -/
def srcTokStep (fs : FS) (s : Settings) : PResult Settings :=
  if truthyS s.src_tok then
    if ¬ fs.pathExists (s.src_tok.getD "") then
      .exited 1 ("error: cannot find -src_tok file: " ++ pyStrOS s.src_tok ++ "\n")
    else
      let tk := fs.tokJson (s.src_tok.getD "")
      let s1 := {s with tok_src := some tk}
      if ¬ truthyS s1.src_voc then .ok {s1 with src_voc := some tk.vocabulary}
      else .ok s1
  else .ok {s with tok_src := none}

/-- `-tgt_tok` handling in the learning-from-scratch branch. -/
def tgtTokStep (fs : FS) (s : Settings) : PResult Settings :=
  if truthyS s.tgt_tok then
    if ¬ fs.pathExists (s.tgt_tok.getD "") then
      .exited 1 ("error: cannot find -tgt_tok file: " ++ pyStrOS s.tgt_tok ++ "\n")
    else
      let tk := fs.tokJson (s.tgt_tok.getD "")
      let s1 := {s with tok_tgt := some tk}
      if ¬ truthyS s1.tgt_voc then .ok {s1 with tgt_voc := some tk.vocabulary}
      else .ok s1
  else .ok {s with tok_tgt := none}

/-- `self.tok_src["vocabulary"]` as used when building a copy destination;
`none` is unreachable at the use sites (guarded by a truthy `src_tok`,
under which `tok_src` was just assigned; Python would raise on `None`). -/
def tokVocD : Option TokConf → String
  | some tk => tk.vocabulary
  | none => ""

/-- The instance attributes of a `Config` object in insertion order, i.e.
the iteration order of `vars(self).items()` at the point where `learn`
writes the topology file. -/
def attrNames : List String :=
  ["usage", "src_voc", "src_tok", "tok_src", "tgt_voc", "tgt_tok", "tok_tgt",
   "src_emb", "tgt_emb", "src_voc_size", "tgt_voc_size", "src_emb_size",
   "tgt_emb_size", "mdir", "epoch", "trn", "dev", "tst", "output",
   "emb_src", "emb_tgt", "src_lstm_size", "tgt_lstm_size", "aggr", "r",
   "dropout", "lr", "lr_decay", "lr_method", "seq_size", "batch_size",
   "max_sents", "n_epochs", "last_epoch", "seed", "report_every", "debug",
   "mode", "quiet", "show_matrix", "show_svg", "show_last", "show_aggr",
   "show_align", "voc_src", "voc_tgt"]

/-- The filter `opt.startswith("src") or opt.startswith("tgt") or
opt == "aggr" or opt == "mode"` selecting which attributes are written to
the topology file. -/
def topoCond (n : String) : Bool :=
  pyStartswith n "src" || pyStartswith n "tgt" || n == "aggr" || n == "mode"

/-- Python `str()` of an attribute value, for the attributes the topology
filter can select.  (Attributes rejected by `topoCond` are never rendered;
their arm is the catch-all.) -/
def attrValue (s : Settings) (n : String) : String :=
  if n = "src_voc" then pyStrOS s.src_voc
  else if n = "src_tok" then pyStrOS s.src_tok
  else if n = "tgt_voc" then pyStrOS s.tgt_voc
  else if n = "tgt_tok" then pyStrOS s.tgt_tok
  else if n = "src_emb" then pyStrOS s.src_emb
  else if n = "tgt_emb" then pyStrOS s.tgt_emb
  else if n = "src_voc_size" then pyStrOI s.src_voc_size
  else if n = "tgt_voc_size" then pyStrOI s.tgt_voc_size
  else if n = "src_emb_size" then pyStrOI s.src_emb_size
  else if n = "tgt_emb_size" then pyStrOI s.tgt_emb_size
  else if n = "src_lstm_size" then toString s.src_lstm_size
  else if n = "tgt_lstm_size" then toString s.tgt_lstm_size
  else if n = "aggr" then s.aggr
  else if n = "mode" then s.mode
  else ""

/-- The `opt val` lines written to the topology file: the attributes in
iteration order, filtered by `topoCond`, each with its rendered value. -/
def topologyEntries (s : Settings) : List (String × String) :=
  (attrNames.filter topoCond).map (fun n => (n, attrValue s n))

/-- Learning-from-scratch branch of `Config.learn` (no model directory):
resolve tokenizations and vocabularies, create the directory, copy the
vocabulary/tokenization artifacts, read the embeddings and persist the
topology manifest, in source order. -/
def learnScratch (fs : FS) (s : Settings) : PResult (Settings × List Eff) :=
  let m := mdirStr s
  PResult.bind (srcTokStep fs s) fun s1 =>
  match fs.vocabLen s1.src_voc with
  | none => .raised
  | some lenS =>
    let s1v := {s1 with voc_src := s1.src_voc}
    PResult.bind (tgtTokStep fs s1v) fun s2 =>
    match fs.vocabLen s2.tgt_voc with
    | none => .raised
    | some lenT =>
      let s3 := {s2 with voc_tgt := s2.tgt_voc,
                         src_voc_size := some lenS, tgt_voc_size := some lenT}
      let mkE := if fs.pathExists m then [] else [Eff.mkdir m]
      let srcCopies :=
        if truthyS s3.src_tok then
          [Eff.copy s3.src_voc (m ++ "/" ++ tokVocD s3.tok_src),
           Eff.copy s3.src_tok (m ++ "/tokenization_src.json")]
        else [Eff.copy s3.src_voc (m ++ "/vocab_src")]
      let tgtCopies :=
        if truthyS s3.tgt_tok then
          [Eff.copy s3.tgt_voc (m ++ "/" ++ tokVocD s3.tok_tgt),
           Eff.copy s3.tgt_tok (m ++ "/tokenization_tgt.json")]
        else [Eff.copy s3.tgt_voc (m ++ "/vocab_tgt")]
      match fs.embedDim s3.src_emb s3.src_emb_size with
      | none => .raised
      | some dS =>
        let s4 := {s3 with emb_src := some dS, src_emb_size := some dS}
        match fs.embedDim s4.tgt_emb s4.tgt_emb_size with
        | none => .raised
        | some dT =>
          let s5 := {s4 with emb_tgt := some dT, tgt_emb_size := some dT}
          .ok (s5, mkE ++ srcCopies ++ tgtCopies ++
            [Eff.writeTopology (m ++ "/topology") (topologyEntries s5),
             Eff.print "learning from scratch"])

/-- `Config.learn`: check the datasets, then branch on whether the model
directory exists (continuation) or not (learning from scratch). -/
def learn (fs : FS) (s : Settings) : PResult (Settings × List Eff) :=
  if ¬ fs.checkData s.trn then .raised
  else if (match s.dev with | some _ => !(fs.checkData s.dev) | none => false) then .raised
  else if fs.pathExists (mdirStr s) then learnCont fs s
  else learnScratch fs s

/-- `Config.__init__`: pop the program name, assign defaults, parse the
command line, require a truthy `-mdir`, then run inference setup if `tst`
is truthy and learning setup if `trn` is truthy (both when both are).
The `tf`/`numpy` seeding calls have no observable effect here. -/
def initConfig (fs : FS) (argv : List String) : PResult (Settings × List Eff) :=
  match argv with
  | [] => .raised
  | prog :: rest =>
    match parse (defaultSettings prog) rest with
    | .exited c m => .exited c m
    | .raised => .raised
    | .ok s =>
      if ¬ truthyS s.mdir then
        .exited 1 ("error: Missing -mdir option\n" ++ s.usage)
      else
        match (if truthyS s.tst then inference fs s else .ok (s, [])) with
        | .exited c m => .exited c m
        | .raised => .raised
        | .ok (s1, e1) =>
          match (if truthyS s1.trn then learn fs s1 else .ok (s1, [])) with
          | .exited c m => .exited c m
          | .raised => .raised
          | .ok (s2, e2) => .ok (s2, e1 ++ e2)

/-- The option names recorded in a topology file written by this program:
attributes prefixed `src`/`tgt`, plus `aggr` and `mode`. -/
def topoNames : List String :=
  ["src_voc", "src_tok", "tgt_voc", "tgt_tok", "src_emb", "tgt_emb",
   "src_voc_size", "tgt_voc_size", "src_emb_size", "tgt_emb_size",
   "src_lstm_size", "tgt_lstm_size", "aggr", "mode"]

/-- The value-taking option tokens of `Config.parse`. -/
def valueOpts : List String :=
  ["-mdir", "-epoch", "-src_tok", "-tgt_tok", "-src_voc", "-tgt_voc",
   "-src_emb", "-tgt_emb", "-src_voc_size", "-tgt_voc_size",
   "-src_emb_size", "-tgt_emb_size", "-trn", "-dev", "-tst", "-output",
   "-max_sents", "-seed", "-report_every", "-n_epochs", "-src_lstm_size",
   "-tgt_lstm_size", "-seq_size", "-batch_size", "-aggr", "-r", "-dropout",
   "-lr", "-lr_decay", "-lr_method", "-mode"]

/-- The flag tokens of `Config.parse` (consume no value). -/
def flagOpts : List String :=
  ["-debug", "-q", "-show_matrix", "-show_svg", "-show_aggr", "-show_last",
   "-show_align"]

/-- All tokens `Config.parse` recognizes. -/
def knownTokens : List String := valueOpts ++ flagOpts ++ ["-h"]

/-- A view of the settings field recorded under a given topology option
name (the possible field types are kept apart). -/
inductive FieldVal where
  | os (v : Option String)
  | oi (v : Option Int)
  | iv (v : Int)
  | sv (v : String)
deriving DecidableEq, Repr

/-- The field a topology option name denotes, `none` for names that are
not topology options. -/
def optView (n : String) (s : Settings) : Option FieldVal :=
  if n = "src_voc" then some (.os s.src_voc)
  else if n = "src_tok" then some (.os s.src_tok)
  else if n = "tgt_voc" then some (.os s.tgt_voc)
  else if n = "tgt_tok" then some (.os s.tgt_tok)
  else if n = "src_emb" then some (.os s.src_emb)
  else if n = "tgt_emb" then some (.os s.tgt_emb)
  else if n = "src_voc_size" then some (.oi s.src_voc_size)
  else if n = "tgt_voc_size" then some (.oi s.tgt_voc_size)
  else if n = "src_emb_size" then some (.oi s.src_emb_size)
  else if n = "tgt_emb_size" then some (.oi s.tgt_emb_size)
  else if n = "src_lstm_size" then some (.iv s.src_lstm_size)
  else if n = "tgt_lstm_size" then some (.iv s.tgt_lstm_size)
  else if n = "aggr" then some (.sv s.aggr)
  else if n = "mode" then some (.sv s.mode)
  else none

/-- The effect of one topology line `-n v` on the settings during
re-parsing, `none` when the `int()` conversion raises (only topology
option names are ever passed). -/
def applyTopo (n v : String) (s : Settings) : Option Settings :=
  if n = "src_voc" then some {s with src_voc := some v}
  else if n = "src_tok" then some {s with src_tok := some v}
  else if n = "tgt_voc" then some {s with tgt_voc := some v}
  else if n = "tgt_tok" then some {s with tgt_tok := some v}
  else if n = "src_emb" then some {s with src_emb := some v}
  else if n = "tgt_emb" then some {s with tgt_emb := some v}
  else if n = "src_voc_size" then (pyInt v).map (fun k => {s with src_voc_size := some k})
  else if n = "tgt_voc_size" then (pyInt v).map (fun k => {s with tgt_voc_size := some k})
  else if n = "src_emb_size" then (pyInt v).map (fun k => {s with src_emb_size := some k})
  else if n = "tgt_emb_size" then (pyInt v).map (fun k => {s with tgt_emb_size := some k})
  else if n = "src_lstm_size" then (pyInt v).map (fun k => {s with src_lstm_size := k})
  else if n = "tgt_lstm_size" then (pyInt v).map (fun k => {s with tgt_lstm_size := k})
  else if n = "aggr" then some {s with aggr := v}
  else if n = "mode" then some {s with mode := v}
  else none

/-- The value `applyTopo` stores for a topology option, independent of the
prior settings. -/
def topoVal (n v : String) : Option FieldVal :=
  if n = "src_voc" then some (.os (some v))
  else if n = "src_tok" then some (.os (some v))
  else if n = "tgt_voc" then some (.os (some v))
  else if n = "tgt_tok" then some (.os (some v))
  else if n = "src_emb" then some (.os (some v))
  else if n = "tgt_emb" then some (.os (some v))
  else if n = "src_voc_size" then (pyInt v).map (fun k => .oi (some k))
  else if n = "tgt_voc_size" then (pyInt v).map (fun k => .oi (some k))
  else if n = "src_emb_size" then (pyInt v).map (fun k => .oi (some k))
  else if n = "tgt_emb_size" then (pyInt v).map (fun k => .oi (some k))
  else if n = "src_lstm_size" then (pyInt v).map (fun k => .iv k)
  else if n = "tgt_lstm_size" then (pyInt v).map (fun k => .iv k)
  else if n = "aggr" then some (.sv v)
  else if n = "mode" then some (.sv v)
  else none

/-- Whether an effect-logged run returned normally with a final state and
effect log satisfying `f` (used to state concrete counterexamples). -/
def holdsOk (p : PResult (Settings × List Eff)) (f : Settings → List Eff → Bool) : Bool :=
  match p with
  | .ok (s, e) => f s e
  | _ => false

/-- The normally-returned state and effect log of a run (a default for the
impossible arms; used to name concrete run results in witnesses). -/
def okD (p : PResult (Settings × List Eff)) : Settings × List Eff :=
  match p with
  | .ok r => r
  | _ => (defaultSettings "", [])

/-! Concrete environments and settings used to instantiate the theorems
below at specific inputs. -/

/-- A populated model directory `d`: topology file, both default-named
vocabulary files, a checkpoint and an `epoch3` index; no tokenization
JSON files; the recorded topology sets `aggr` and `src_lstm_size`. -/
def fsCont : FS where
  pathExists := fun p =>
    p ∈ ["d", "d/topology", "d/vocab_src", "d/vocab_tgt", "d/checkpoint", "d/epoch3.index"]
  topology := fun _ => [("aggr", "sum"), ("src_lstm_size", "128")]
  tokJson := fun _ => ⟨"v"⟩
  vocabLen := fun _ => some 11
  embedDim := fun _ _ => some 7
  checkData := fun _ => true

/-- A fresh environment: only the vocabulary files `sv` and `tv` exist. -/
def fsScratch : FS where
  pathExists := fun p => p ∈ ["sv", "tv"]
  topology := fun _ => []
  tokJson := fun _ => ⟨"v"⟩
  vocabLen := fun p => if p = some "sv" || p = some "tv" then some 11 else none
  embedDim := fun _ _ => some 7
  checkData := fun _ => true

/-- An environment where the model directory `d` exists but is empty. -/
def fsBare : FS where
  pathExists := fun p => p ∈ ["d"]
  topology := fun _ => []
  tokJson := fun _ => ⟨"v"⟩
  vocabLen := fun _ => none
  embedDim := fun _ _ => none
  checkData := fun _ => true

/-- Settings after parsing `-mdir d -trn T`. -/
def sLearnCont : Settings := {defaultSettings "p" with mdir := some "d", trn := some "T"}

/-- Settings after parsing `-mdir d -tst X -epoch 3`. -/
def sInfA : Settings := {defaultSettings "p" with mdir := some "d", tst := some "X", epoch := some 3}

/-- Settings after parsing `-mdir d -tst X -epoch 3 -aggr max -src_lstm_size 999`:
command-line values for two topology options. -/
def sInfB : Settings :=
  {defaultSettings "p" with
    mdir := some "d"
    tst := some "X"
    epoch := some 3
    aggr := "max"
    src_lstm_size := 999}

/-- Settings after parsing `-mdir d -trn T -src_voc sv -tgt_voc tv`. -/
def sScratch : Settings :=
  {defaultSettings "p" with
    mdir := some "d"
    trn := some "T"
    src_voc := some "sv"
    tgt_voc := some "tv"}

section Lemmas

/-- Appending distinct suffixes to the same string yields distinct strings. -/
theorem strApp_ne (m a b : String) (h : a ≠ b) : m ++ a ≠ m ++ b := by
  intro he
  apply h
  have hd : (m ++ a).data = (m ++ b).data := congrArg String.data he
  rw [String.data_append, String.data_append] at hd
  have h2 := List.append_cancel_left hd
  cases a
  cases b
  simp only at h2
  rw [h2]

theorem bind_eq_ok {α β : Type} (x : PResult α) (f : α → PResult β) (b : β) :
    x.bind f = .ok b ↔ ∃ a, x = .ok a ∧ f a = .ok b := by
  cases x <;> simp [PResult.bind]

theorem parse_nil (s : Settings) : parse s [] = .ok s := rfl

theorem parse_one (s : Settings) (tok : String) :
    parse s [tok] =
      (match pStep s tok none with
       | .cont1 s' => parse s' []
       | .cont2 s' => parse s' []
       | .ex c m => .exited c m
       | .raise => .raised) := rfl

theorem parse_cons2 (s : Settings) (tok v : String) (rest : List String) :
    parse s (tok :: v :: rest) =
      (match pStep s tok (some v) with
       | .cont1 s' => parse s' (v :: rest)
       | .cont2 s' => parse s' rest
       | .ex c m => .exited c m
       | .raise => .raised) := rfl

/-- A step that continues on a flag token does so independently of whether
a further token follows: flag branches of the `elif` chain do not consult
`len(argv)`. -/
theorem pStep_none_cont1 (s : Settings) (tok : String) (t : Settings)
    (h : pStep s tok none = .cont1 t) (v? : Option String) : pStep s tok v? = .cont1 t := by
  simp only [pStep, Option.isSome_none, Bool.false_eq_true, and_false, if_false] at h
  split_ifs at h
  all_goals subst_vars
  all_goals exact h

/-- With no following token, no branch can consume a value. -/
theorem pStep_none_ne_cont2 (s : Settings) (tok : String) (t : Settings) :
    pStep s tok none ≠ .cont2 t := by
  simp only [pStep, Option.isSome_none, Bool.false_eq_true, and_false, if_false]
  split_ifs <;> simp

/-- `Config.parse` works strictly left to right: a successfully parsed
prefix leaves the remaining tokens to be parsed from the resulting state. -/
theorem parse_append : ∀ (xs : List String) (s t : Settings) (ys : List String),
    parse s xs = .ok t → parse s (xs ++ ys) = parse t ys
  | [], s, t, ys, h => by
    rw [parse_nil] at h
    cases h
    rfl
  | [tok], s, t, ys, h => by
    rw [parse_one] at h
    cases hp : pStep s tok none with
    | cont1 s' =>
      rw [hp] at h
      have h' : PResult.ok s' = PResult.ok t := h
      cases h'
      cases ys with
      | nil =>
        rw [List.append_nil, parse_one, hp]
      | cons y ys' =>
        show parse s (tok :: y :: ys') = _
        rw [parse_cons2, pStep_none_cont1 s tok t hp (some y)]
    | cont2 s' => exact absurd hp (pStep_none_ne_cont2 s tok s')
    | ex c m =>
      rw [hp] at h
      exact absurd (show PResult.exited c m = PResult.ok t from h) (by simp)
    | raise =>
      rw [hp] at h
      exact absurd (show PResult.raised = PResult.ok t from h) (by simp)
  | tok :: v :: rest, s, t, ys, h => by
    rw [parse_cons2] at h
    cases hp : pStep s tok (some v) with
    | cont1 s' =>
      rw [hp] at h
      show parse s (tok :: v :: (rest ++ ys)) = _
      rw [parse_cons2, hp]
      exact parse_append (v :: rest) s' t ys h
    | cont2 s' =>
      rw [hp] at h
      show parse s (tok :: v :: (rest ++ ys)) = _
      rw [parse_cons2, hp]
      exact parse_append rest s' t ys h
    | ex c m =>
      rw [hp] at h
      exact absurd (show PResult.exited c m = PResult.ok t from h) (by simp)
    | raise =>
      rw [hp] at h
      exact absurd (show PResult.raised = PResult.ok t from h) (by simp)
termination_by xs => xs.length

/-- Parsing one topology line `-n v` assigns the corresponding field (or
raises when the recorded value fails the `int()` conversion). -/
theorem step_topo (n : String) (hn : n ∈ topoNames) (v : String) (s : Settings)
    (rst : List String) :
    parse s (("-" ++ n) :: v :: rst) =
      (match applyTopo n v s with
       | some s' => parse s' rst
       | none => .raised) := by
  simp only [topoNames, List.mem_cons, List.not_mem_nil, or_false] at hn
  rcases hn with rfl | rfl | rfl | rfl | rfl | rfl | rfl | rfl | rfl | rfl | rfl | rfl | rfl | rfl
  all_goals rw [parse_cons2]
  all_goals first
    | (simp [pStep, applyTopo]; done)
    | (cases hi : pyInt v <;> simp [pStep, applyTopo, hi])

/-- Whether a topology line applies cleanly does not depend on the prior
settings (only on the `int()` conversion of its value). -/
theorem applyTopo_isSome (n : String) (hn : n ∈ topoNames) (v : String) (s₁ s₂ : Settings) :
    (applyTopo n v s₁).isSome = (applyTopo n v s₂).isSome := by
  simp only [topoNames, List.mem_cons, List.not_mem_nil, or_false] at hn
  rcases hn with rfl | rfl | rfl | rfl | rfl | rfl | rfl | rfl | rfl | rfl | rfl | rfl | rfl | rfl
  all_goals first
    | (simp [applyTopo]; done)
    | (cases hi : pyInt v <;> simp [applyTopo, hi])

/-- After applying a topology line, the named field holds a value that
depends only on the line, not on the prior settings. -/
theorem optView_applyTopo_self (n : String) (hn : n ∈ topoNames) (v : String) (s s' : Settings)
    (h : applyTopo n v s = some s') : optView n s' = topoVal n v := by
  simp only [topoNames, List.mem_cons, List.not_mem_nil, or_false] at hn
  rcases hn with rfl | rfl | rfl | rfl | rfl | rfl | rfl | rfl | rfl | rfl | rfl | rfl | rfl | rfl
  all_goals first
    | (simp [applyTopo] at h; subst h; simp [optView, topoVal]; done)
    | (cases hi : pyInt v <;> simp [applyTopo, hi] at h <;> subst h <;>
        simp [optView, topoVal, hi])

/-- Applying a topology line leaves every other topology field unchanged. -/
theorem optView_applyTopo_other (n nm : String) (hn : nm ∈ topoNames) (v : String)
    (s s' : Settings) (hne : n ≠ nm) (h : applyTopo nm v s = some s') :
    optView n s' = optView n s := by
  simp only [topoNames, List.mem_cons, List.not_mem_nil, or_false] at hn
  rcases hn with rfl | rfl | rfl | rfl | rfl | rfl | rfl | rfl | rfl | rfl | rfl | rfl | rfl | rfl
  all_goals first
    | (simp [applyTopo] at h; subst h; simp [optView, hne]; done)
    | (cases hi : pyInt v <;> simp [applyTopo, hi] at h <;> subst h <;> simp [optView, hne])

/-- Applying a topology line never touches `epoch`, `dropout`, `seq_size`,
`usage`, `trn` or `tst`. -/
theorem applyTopo_pres (nm : String) (hn : nm ∈ topoNames) (v : String) (s s' : Settings)
    (h : applyTopo nm v s = some s') :
    s'.epoch = s.epoch ∧ s'.dropout = s.dropout ∧ s'.seq_size = s.seq_size ∧
      s'.usage = s.usage ∧ s'.trn = s.trn ∧ s'.tst = s.tst := by
  simp only [topoNames, List.mem_cons, List.not_mem_nil, or_false] at hn
  rcases hn with rfl | rfl | rfl | rfl | rfl | rfl | rfl | rfl | rfl | rfl | rfl | rfl | rfl | rfl
  all_goals first
    | (simp [applyTopo] at h; subst h; simp; done)
    | (cases hi : pyInt v <;> simp [applyTopo, hi] at h <;> subst h <;> simp)

/-- Re-parsing the same topology lines from two arbitrary prior settings
yields the same value for every option named in the lines (and preserves
agreement on all other topology options). -/
theorem topo_parse_agree : ∀ (pairs : List (String × String)) (s₁ s₂ t₁ t₂ : Settings),
    (∀ p ∈ pairs, p.1 ∈ topoNames) →
    parse s₁ (topoArgv pairs) = .ok t₁ →
    parse s₂ (topoArgv pairs) = .ok t₂ →
    ∀ n : String, (n ∈ pairs.map Prod.fst ∨ optView n s₁ = optView n s₂) →
    optView n t₁ = optView n t₂
  | [], s₁, s₂, t₁, t₂, _, h₁, h₂, n, hd => by
    rw [show topoArgv [] = [] from rfl, parse_nil] at h₁ h₂
    cases h₁
    cases h₂
    rcases hd with hmem | hagree
    · simp at hmem
    · exact hagree
  | (nm, v) :: rest, s₁, s₂, t₁, t₂, hnames, h₁, h₂, n, hd => by
    have hnm : nm ∈ topoNames := hnames (nm, v) (List.mem_cons_self _ _)
    rw [show topoArgv ((nm, v) :: rest) = ("-" ++ nm) :: v :: topoArgv rest from rfl,
      step_topo nm hnm v] at h₁ h₂
    cases ha₁ : applyTopo nm v s₁ with
    | none =>
      rw [ha₁] at h₁
      exact absurd (show PResult.raised = PResult.ok t₁ from h₁) (by simp)
    | some s₁' =>
      cases ha₂ : applyTopo nm v s₂ with
      | none =>
        have hs := applyTopo_isSome nm hnm v s₁ s₂
        rw [ha₁, ha₂] at hs
        simp at hs
      | some s₂' =>
        rw [ha₁] at h₁
        rw [ha₂] at h₂
        have h₁' : parse s₁' (topoArgv rest) = .ok t₁ := h₁
        have h₂' : parse s₂' (topoArgv rest) = .ok t₂ := h₂
        have hnames' : ∀ p ∈ rest, p.1 ∈ topoNames :=
          fun p hp => hnames p (List.mem_cons_of_mem _ hp)
        refine topo_parse_agree rest s₁' s₂' t₁ t₂ hnames' h₁' h₂' n ?_
        rcases hd with hmem | hagree
        · simp only [List.map_cons, List.mem_cons] at hmem
          rcases hmem with rfl | hmem
          · exact Or.inr ((optView_applyTopo_self n hnm v s₁ s₁' ha₁).trans
              (optView_applyTopo_self n hnm v s₂ s₂' ha₂).symm)
          · exact Or.inl hmem
        · by_cases hnn : n = nm
          · subst hnn
            exact Or.inr ((optView_applyTopo_self n hnm v s₁ s₁' ha₁).trans
              (optView_applyTopo_self n hnm v s₂ s₂' ha₂).symm)
          · refine Or.inr ?_
            rw [optView_applyTopo_other n nm hnm v s₁ s₁' hnn ha₁,
              optView_applyTopo_other n nm hnm v s₂ s₂' hnn ha₂]
            exact hagree

/-- Re-parsing topology lines never changes `epoch`, `dropout`,
`seq_size`, `usage`, `trn` or `tst` (none of these is a topology option). -/
theorem topo_parse_pres : ∀ (pairs : List (String × String)) (s t : Settings),
    (∀ p ∈ pairs, p.1 ∈ topoNames) →
    parse s (topoArgv pairs) = .ok t →
    t.epoch = s.epoch ∧ t.dropout = s.dropout ∧ t.seq_size = s.seq_size ∧
      t.usage = s.usage ∧ t.trn = s.trn ∧ t.tst = s.tst
  | [], s, t, _, h => by
    rw [show topoArgv [] = [] from rfl, parse_nil] at h
    cases h
    exact ⟨rfl, rfl, rfl, rfl, rfl, rfl⟩
  | (nm, v) :: rest, s, t, hnames, h => by
    have hnm : nm ∈ topoNames := hnames (nm, v) (List.mem_cons_self _ _)
    rw [show topoArgv ((nm, v) :: rest) = ("-" ++ nm) :: v :: topoArgv rest from rfl,
      step_topo nm hnm v] at h
    cases ha : applyTopo nm v s with
    | none =>
      rw [ha] at h
      exact absurd (show PResult.raised = PResult.ok t from h) (by simp)
    | some s' =>
      rw [ha] at h
      have h' : parse s' (topoArgv rest) = .ok t := h
      have ih := topo_parse_pres rest s' t
        (fun p hp => hnames p (List.mem_cons_of_mem _ hp)) h'
      have hp := applyTopo_pres nm hnm v s s' ha
      exact ⟨ih.1.trans hp.1, ih.2.1.trans hp.2.1, ih.2.2.1.trans hp.2.2.1,
        ih.2.2.2.1.trans hp.2.2.2.1, ih.2.2.2.2.1.trans hp.2.2.2.2.1,
        ih.2.2.2.2.2.trans hp.2.2.2.2.2⟩

/-- Loading the vocabulary objects does not change any topology option. -/
theorem optView_voc (n : String) (s : Settings) (a b : Option String) :
    optView n {s with voc_src := a, voc_tgt := b} = optView n s := by
  simp [optView]

/-- Loading the vocabularies and updating `last_epoch` does not change any
topology option. -/
theorem optView_voc_epoch (n : String) (s : Settings) (a b : Option String) (e : Int) :
    optView n {s with voc_src := a, voc_tgt := b, last_epoch := e} = optView n s := by
  simp [optView]

/-- Output redirection touches only the `output` attribute. -/
theorem outputResolve_pres (s : Settings) :
    (outputResolve s).dropout = s.dropout ∧ (outputResolve s).seq_size = s.seq_size ∧
      (outputResolve s).epoch = s.epoch ∧ (outputResolve s).usage = s.usage ∧
      (outputResolve s).trn = s.trn ∧ (outputResolve s).mdir = s.mdir := by
  cases ho : s.output <;> simp [outputResolve, ho]
  split_ifs <;> simp

/-- Epoch resolution leaves everything but `epoch` unchanged. -/
theorem resolveEpoch_pres (fs : FS) (m : String) (s s1 : Settings)
    (h : resolveEpoch fs m s = .ok s1) :
    s1.dropout = s.dropout ∧ s1.seq_size = s.seq_size ∧ s1.usage = s.usage ∧
      s1.trn = s.trn ∧ s1.tst = s.tst ∧ s1.mdir = s.mdir := by
  unfold resolveEpoch at h
  split_ifs at h
  · cases h; exact ⟨rfl, rfl, rfl, rfl, rfl, rfl⟩
  · cases hf : findEpochDown fs m 999 <;> rw [hf] at h <;> cases h
    simp

/-- Epoch resolution either keeps a truthy `-epoch` or installs the epoch
found by the downward search. -/
theorem resolveEpoch_ok (fs : FS) (m : String) (s s1 : Settings)
    (h : resolveEpoch fs m s = .ok s1) :
    (truthyI s.epoch = true ∧ s1 = s) ∨
      (truthyI s.epoch = false ∧
        ∃ e, findEpochDown fs m 999 = some e ∧ s1 = {s with epoch := some (e : Int)}) := by
  unfold resolveEpoch at h
  split_ifs at h with ht
  · cases h; exact Or.inl ⟨ht, rfl⟩
  · cases hf : findEpochDown fs m 999 <;> rw [hf] at h <;> cases h
    exact Or.inr ⟨by simpa using ht, _, rfl, rfl⟩

/-- The middle checks of inference setup leave `dropout`, `seq_size`,
`epoch`, `usage` and `trn` unchanged. -/
theorem inferMid_ok (fs : FS) (m : String) (s t : Settings)
    (h : inferMid fs m s = .ok t) :
    t.dropout = s.dropout ∧ t.seq_size = s.seq_size ∧ t.epoch = s.epoch ∧
      t.usage = s.usage ∧ t.trn = s.trn := by
  obtain ⟨hd, hs, he, hu, ht', _⟩ := outputResolve_pres s
  simp only [inferMid] at h
  split_ifs at h
  all_goals cases h
  all_goals exact ⟨hd, hs, he, hu, ht'⟩

/-- Inversion of the final inference stage: the topology file was
re-parsed successfully and the result only gains the vocabulary objects. -/
theorem inferenceFinish_ok (fs : FS) (m srcv tgtv : String) (s t : Settings) (effs : List Eff)
    (h : inferenceFinish fs m srcv tgtv s = .ok (t, effs)) :
    ∃ p, parse s (topoArgv (fs.topology (m ++ "/topology"))) = .ok p ∧
      t = {p with voc_src := some (m ++ "/" ++ srcv), voc_tgt := some (m ++ "/" ++ tgtv)} ∧
      effs = [] := by
  simp only [inferenceFinish] at h
  cases hp : parse s (topoArgv (fs.topology (m ++ "/topology"))) <;> rw [hp] at h
  case exited => cases h
  case raised => cases h
  case ok p =>
    cases hv1 : fs.vocabLen (some (m ++ "/" ++ srcv)) <;> rw [hv1] at h
    · cases h
    · cases hv2 : fs.vocabLen (some (m ++ "/" ++ tgtv)) <;> rw [hv2] at h
      · cases h
      · cases h
        exact ⟨p, rfl, rfl, rfl⟩

/-- Inversion of `inference`: decompose a successful run into its stages. -/
theorem inference_ok (fs : FS) (s t : Settings) (effs : List Eff)
    (h : inference fs s = .ok (t, effs)) :
    ∃ s1 s2 p,
      resolveEpoch fs (mdirStr s) {s with dropout := 0, seq_size := 0} = .ok s1 ∧
      inferMid fs (mdirStr s) s1 = .ok s2 ∧
      parse s2 (topoArgv (fs.topology (mdirStr s ++ "/topology"))) = .ok p ∧
      t = {p with voc_src := some (mdirStr s ++ "/" ++ srcVocName fs (mdirStr s)),
                  voc_tgt := some (mdirStr s ++ "/" ++ tgtVocName fs (mdirStr s))} ∧
      effs = [] := by
  simp only [inference] at h
  rw [bind_eq_ok] at h
  obtain ⟨s1, h1, h⟩ := h
  rw [bind_eq_ok] at h
  obtain ⟨s2, h2, h⟩ := h
  obtain ⟨p, hp, ht, he⟩ := inferenceFinish_ok _ _ _ _ _ _ _ h
  exact ⟨s1, s2, p, h1, h2, hp, ht, he⟩

/-- Inversion of the final continuation stage of `learn`. -/
theorem learnContFinish_ok (fs : FS) (m srcv tgtv : String) (s t : Settings) (effs : List Eff)
    (h : learnContFinish fs m srcv tgtv s = .ok (t, effs)) :
    ∃ p, parse s (topoArgv (fs.topology (m ++ "/topology"))) = .ok p ∧
      t = (match findEpochDown fs m 999 with
           | some e => {p with voc_src := some (m ++ "/" ++ srcv),
                               voc_tgt := some (m ++ "/" ++ tgtv), last_epoch := (e : Int)}
           | none => {p with voc_src := some (m ++ "/" ++ srcv),
                             voc_tgt := some (m ++ "/" ++ tgtv)}) ∧
      effs = [Eff.print ("learning continuation: last epoch is " ++ toString t.last_epoch)] := by
  simp only [learnContFinish] at h
  cases hp : parse s (topoArgv (fs.topology (m ++ "/topology"))) <;> rw [hp] at h
  case exited => cases h
  case raised => cases h
  case ok p =>
    cases hv1 : fs.vocabLen (some (m ++ "/" ++ srcv)) <;> rw [hv1] at h
    · cases h
    · cases hv2 : fs.vocabLen (some (m ++ "/" ++ tgtv)) <;> rw [hv2] at h
      · cases h
      · cases hf : findEpochDown fs m 999 <;> rw [hf] at h <;> cases h
        · exact ⟨p, rfl, rfl, rfl⟩
        · exact ⟨p, rfl, rfl, rfl⟩

/-- Inversion of the continuation branch of `learn`: all four existence
checks passed, and the tail ran from a state differing from the input only
in the tokenization attributes. -/
theorem learnCont_ok (fs : FS) (s t : Settings) (effs : List Eff)
    (h : learnCont fs s = .ok (t, effs)) :
    fs.pathExists (mdirStr s ++ "/topology") = true ∧
    fs.pathExists (mdirStr s ++ "/" ++ srcVocName fs (mdirStr s)) = true ∧
    fs.pathExists (mdirStr s ++ "/" ++ tgtVocName fs (mdirStr s)) = true ∧
    fs.pathExists (mdirStr s ++ "/checkpoint") = true ∧
    ∃ s2, s2.epoch = s.epoch ∧ s2.dropout = s.dropout ∧ s2.seq_size = s.seq_size ∧
      s2.usage = s.usage ∧ s2.trn = s.trn ∧ s2.tst = s.tst ∧
      learnContFinish fs (mdirStr s) (srcVocName fs (mdirStr s)) (tgtVocName fs (mdirStr s)) s2
        = .ok (t, effs) := by
  simp only [learnCont] at h
  split_ifs at h
  all_goals try cases h
  all_goals simp only [not_not] at *
  all_goals refine ⟨by assumption, by assumption, by assumption, by assumption,
    _, by simp, by simp, by simp, by simp, by simp, by simp, h⟩

/-- Inversion of the `-src_tok` handling step. -/
theorem srcTokStep_ok (fs : FS) (s s1 : Settings) (h : srcTokStep fs s = .ok s1) :
    s1.src_tok = s.src_tok ∧ s1.tgt_tok = s.tgt_tok ∧ s1.tgt_voc = s.tgt_voc ∧
      s1.tok_tgt = s.tok_tgt ∧ s1.src_emb = s.src_emb ∧ s1.tgt_emb = s.tgt_emb ∧
      s1.src_emb_size = s.src_emb_size ∧ s1.tgt_emb_size = s.tgt_emb_size ∧
      s1.mdir = s.mdir ∧
      (truthyS s.src_tok = true → s1.tok_src = some (fs.tokJson (s.src_tok.getD ""))) ∧
      (truthyS s.src_tok = false → s1.tok_src = none) := by
  simp only [srcTokStep] at h
  split_ifs at h
  all_goals cases h
  all_goals simp [*]

theorem tgtTokStep_ok (fs : FS) (s s1 : Settings) (h : tgtTokStep fs s = .ok s1) :
    s1.tgt_tok = s.tgt_tok ∧ s1.src_tok = s.src_tok ∧ s1.src_voc = s.src_voc ∧
      s1.tok_src = s.tok_src ∧ s1.src_emb = s.src_emb ∧ s1.tgt_emb = s.tgt_emb ∧
      s1.src_emb_size = s.src_emb_size ∧ s1.tgt_emb_size = s.tgt_emb_size ∧
      s1.mdir = s.mdir ∧ s1.voc_src = s.voc_src ∧
      (truthyS s.tgt_tok = true → s1.tok_tgt = some (fs.tokJson (s.tgt_tok.getD ""))) ∧
      (truthyS s.tgt_tok = false → s1.tok_tgt = none) := by
  simp only [tgtTokStep] at h
  split_ifs at h
  all_goals cases h
  all_goals simp [*]

theorem learnScratch_ok (fs : FS) (s t : Settings) (effs : List Eff)
    (h : learnScratch fs s = .ok (t, effs)) :
    ∃ s1 s2 lenS lenT dS dT,
      srcTokStep fs s = .ok s1 ∧
      fs.vocabLen s1.src_voc = some lenS ∧
      tgtTokStep fs {s1 with voc_src := s1.src_voc} = .ok s2 ∧
      fs.vocabLen s2.tgt_voc = some lenT ∧
      fs.embedDim s2.src_emb s2.src_emb_size = some dS ∧
      fs.embedDim s2.tgt_emb s2.tgt_emb_size = some dT ∧
      t = {s2 with voc_tgt := s2.tgt_voc, src_voc_size := some lenS, tgt_voc_size := some lenT,
                   emb_src := some dS, src_emb_size := some dS,
                   emb_tgt := some dT, tgt_emb_size := some dT} ∧
      effs = (if fs.pathExists (mdirStr s) then [] else [Eff.mkdir (mdirStr s)]) ++
        (if truthyS s2.src_tok then
            [Eff.copy s2.src_voc (mdirStr s ++ "/" ++ tokVocD s2.tok_src),
             Eff.copy s2.src_tok (mdirStr s ++ "/tokenization_src.json")]
          else [Eff.copy s2.src_voc (mdirStr s ++ "/vocab_src")]) ++
        (if truthyS s2.tgt_tok then
            [Eff.copy s2.tgt_voc (mdirStr s ++ "/" ++ tokVocD s2.tok_tgt),
             Eff.copy s2.tgt_tok (mdirStr s ++ "/tokenization_tgt.json")]
          else [Eff.copy s2.tgt_voc (mdirStr s ++ "/vocab_tgt")]) ++
        [Eff.writeTopology (mdirStr s ++ "/topology") (topologyEntries t),
         Eff.print "learning from scratch"] := by
  simp only [learnScratch] at h
  rw [bind_eq_ok] at h
  obtain ⟨s1, h1, h⟩ := h
  cases hv1 : fs.vocabLen s1.src_voc <;> rw [hv1] at h
  · cases h
  case some lenS =>
    rw [bind_eq_ok] at h
    obtain ⟨s2, h2, h⟩ := h
    cases hv2 : fs.vocabLen s2.tgt_voc <;> rw [hv2] at h
    · cases h
    case some lenT =>
      cases hd1 : fs.embedDim s2.src_emb s2.src_emb_size <;> rw [hd1] at h
      · cases h
      case some dS =>
        cases hd2 : fs.embedDim s2.tgt_emb s2.tgt_emb_size <;> rw [hd2] at h
        · cases h
        case some dT =>
          cases h
          exact ⟨s1, s2, lenS, lenT, dS, dT, h1, hv1, h2, hv2, hd1, hd2, rfl, rfl⟩

/-- The recorded option names of a topology write are exactly the
attribute names passing the source filter. -/
theorem topologyEntries_names (s : Settings) :
    (topologyEntries s).map Prod.fst = attrNames.filter topoCond := by
  simp [topologyEntries, List.map_map, Function.comp_def]

/-- The `dev` dataset guard of `learn` passes when `dev` is unset or its
check succeeds. -/
theorem devGuard_false (fs : FS) (s : Settings)
    (hdev : s.dev = none ∨ fs.checkData s.dev = true) :
    (match s.dev with | some _ => !(fs.checkData s.dev) | none => false) = false := by
  rcases hdev with hd | hd
  · rw [hd]
  · cases hsd : s.dev
    · rfl
    · rw [hsd] at hd
      simp [hd]

/-- With passing dataset checks and an existing model directory, `learn`
is the continuation branch. -/
theorem learn_eq_cont (fs : FS) (s : Settings) (m : String)
    (hm : s.mdir = some m) (hck : fs.checkData s.trn = true)
    (hdev : s.dev = none ∨ fs.checkData s.dev = true)
    (hex : fs.pathExists m = true) : learn fs s = learnCont fs s := by
  have hms : mdirStr s = m := by simp [mdirStr, hm]
  simp [learn, hck, devGuard_false fs s hdev, hms, hex]

/-- With passing dataset checks and no model directory, `learn` is the
learning-from-scratch branch. -/
theorem learn_eq_scratch (fs : FS) (s : Settings) (m : String)
    (hm : s.mdir = some m) (hck : fs.checkData s.trn = true)
    (hdev : s.dev = none ∨ fs.checkData s.dev = true)
    (hex : fs.pathExists m = false) : learn fs s = learnScratch fs s := by
  have hms : mdirStr s = m := by simp [mdirStr, hm]
  simp [learn, hck, devGuard_false fs s hdev, hms, hex]

/-- A completed scratch run creates the model directory and writes the
topology manifest. -/
theorem scratch_mkdir_write (fs : FS) (s : Settings) (m : String) (t : Settings)
    (effs : List Eff) (hm : s.mdir = some m) (hscr : fs.pathExists m = false)
    (h : learnScratch fs s = .ok (t, effs)) :
    Eff.mkdir m ∈ effs ∧
    Eff.writeTopology (m ++ "/topology") (topologyEntries t) ∈ effs := by
  have hms : mdirStr s = m := by simp [mdirStr, hm]
  obtain ⟨s1, s2, lenS, lenT, dS, dT, h1, hv1, h2, hv2, hd1, hd2, htEq, heffs⟩ :=
    learnScratch_ok fs s t effs h
  subst heffs
  rw [hms, hscr] at *
  constructor
  · simp
  · simp

/-- Specification of the downward epoch search: a hit is the largest epoch
in `1..fuel` whose index file exists; a miss means none exists. -/
theorem findEpochDown_spec (fs : FS) (m : String) : ∀ fuel : Nat,
    (∀ e, findEpochDown fs m fuel = some e →
      1 ≤ e ∧ e ≤ fuel ∧ fs.pathExists (epochIndexPath m e) = true ∧
        ∀ e', e < e' → e' ≤ fuel → fs.pathExists (epochIndexPath m e') = false) ∧
    (findEpochDown fs m fuel = none →
      ∀ e, 1 ≤ e → e ≤ fuel → fs.pathExists (epochIndexPath m e) = false)
  | 0 =>
    ⟨fun e he => by simp [findEpochDown] at he,
     fun _ e h1 h2 => absurd (h1.trans h2) (by omega)⟩
  | (f + 1) => by
    obtain ⟨ihs, ihn⟩ := findEpochDown_spec fs m f
    constructor
    · intro e he
      rw [show findEpochDown fs m (f + 1) =
        (if fs.pathExists (epochIndexPath m (f + 1)) then some (f + 1)
         else findEpochDown fs m f) from rfl] at he
      split_ifs at he with hex
      · cases he
        exact ⟨by omega, by omega, hex, fun e' hgt hle => absurd hle (by omega)⟩
      · obtain ⟨e1, e2, e3, e4⟩ := ihs e he
        refine ⟨e1, by omega, e3, fun e' hgt hle => ?_⟩
        rcases Nat.lt_or_ge e' (f + 1) with hlt | hge
        · exact e4 e' hgt (by omega)
        · have heq : e' = f + 1 := by omega
          subst heq
          simpa using hex
    · intro hn e h1 h2
      rw [show findEpochDown fs m (f + 1) =
        (if fs.pathExists (epochIndexPath m (f + 1)) then some (f + 1)
         else findEpochDown fs m f) from rfl] at hn
      split_ifs at hn with hex
      rcases Nat.lt_or_ge e (f + 1) with hlt | hge
      · exact ihn hn e h1 (by omega)
      · have heq : e = f + 1 := by omega
        subst heq
        simpa using hex

/-- An unrecognized token (or a value-taking token with no value, which
fails every guard) reaches the final unparsed-option branch. -/
theorem pStep_unknown (s : Settings) (tok : String) (v? : Option String)
    (htok : tok ∉ knownTokens) :
    pStep s tok v? = .ex 1 ("error: unparsed " ++ tok ++ " option\n" ++ s.usage) := by
  simp only [knownTokens, valueOpts, flagOpts, List.append_assoc, List.cons_append,
    List.nil_append, List.mem_cons, List.not_mem_nil, or_false, not_or] at htok
  obtain ⟨h1, h2, h3, h4, h5, h6, h7, h8, h9, h10, h11, h12, h13, h14, h15, h16, h17, h18, h19, h20, h21, h22, h23, h24, h25, h26, h27, h28, h29, h30, h31, h32, h33, h34, h35, h36, h37, h38, h39⟩ := htok
  simp only [pStep, h1, h2, h3, h4, h5, h6, h7, h8, h9, h10, h11, h12, h13, h14, h15, h16, h17, h18, h19, h20, h21, h22, h23, h24, h25, h26, h27, h28, h29, h30, h31, h32, h33, h34, h35, h36, h37, h38, h39, false_and, if_false, ite_false]

end Lemmas



section Claims

/-- C7: Before any argument token is examined, every settings field equals
the default enumerated in the help text — seq_size 50, batch_size 32, seed
1234, src_lstm_size 256, tgt_lstm_size 256, lr 1.0, lr_decay 0.9,
lr_method adagrad, aggr lse, r 1.0, dropout 0.3, mode alignment, max_sents
0, n_epochs 1, report_every 1000, output the string `-`, and all boolean
flags False — and `parse` mutates these fields in place consuming the argv
tokens left to right: a successfully parsed prefix leaves exactly the
remaining tokens to be parsed from the mutated settings. -/
theorem c7_defaults_and_left_to_right :
    (∀ prog : String,
      (defaultSettings prog).seq_size = 50 ∧
      (defaultSettings prog).batch_size = 32 ∧
      (defaultSettings prog).seed = 1234 ∧
      (defaultSettings prog).src_lstm_size = 256 ∧
      (defaultSettings prog).tgt_lstm_size = 256 ∧
      (defaultSettings prog).lr = 1 ∧
      (defaultSettings prog).lr_decay = mkRat 9 10 ∧
      (defaultSettings prog).lr_method = "adagrad" ∧
      (defaultSettings prog).aggr = "lse" ∧
      (defaultSettings prog).r = 1 ∧
      (defaultSettings prog).dropout = mkRat 3 10 ∧
      (defaultSettings prog).mode = "alignment" ∧
      (defaultSettings prog).max_sents = 0 ∧
      (defaultSettings prog).n_epochs = 1 ∧
      (defaultSettings prog).report_every = 1000 ∧
      (defaultSettings prog).output = Out.str "-" ∧
      (defaultSettings prog).debug = false ∧
      (defaultSettings prog).quiet = false ∧
      (defaultSettings prog).show_matrix = false ∧
      (defaultSettings prog).show_svg = false ∧
      (defaultSettings prog).show_last = false ∧
      (defaultSettings prog).show_aggr = false ∧
      (defaultSettings prog).show_align = false) ∧
    (∀ (s t : Settings) (xs ys : List String),
      parse s xs = .ok t → parse s (xs ++ ys) = parse t ys) := by
  constructor
  · exact fun _ => ⟨rfl, rfl, rfl, rfl, rfl, rfl, rfl, rfl, rfl, rfl, rfl, rfl, rfl,
      rfl, rfl, rfl, rfl, rfl, rfl, rfl, rfl, rfl, rfl⟩
  · exact fun s t xs ys h => parse_append xs s t ys h

/-- Witness for C7 at a concrete input: parsing `-seed 7` followed by
`-debug` equals first mutating `seed` and then parsing the rest. -/
theorem c7_witness :
    parse (defaultSettings "p") (["-seed", "7"] ++ ["-debug"]) =
      parse {defaultSettings "p" with seed := 7} ["-debug"] :=
  c7_defaults_and_left_to_right.2 (defaultSettings "p")
    {defaultSettings "p" with seed := 7} ["-seed", "7"] ["-debug"] rfl

/-- C10: a value-taking option token arriving with no value after it is
not silently ignored: after a successfully parsed prefix it falls through
to the unrecognized-option branch, an unparsed error message (followed by
the usage text) is written and the process exits with status 1; `-h`
instead prints the usage and exits with status 0; and any token matching
no branch likewise exits with the unparsed error, so every token of argv
is either consumed by its branch or terminates the parse. -/
theorem c10_parse_error_handling :
    (∀ (s t : Settings) (pre : List String) (tok : String), tok ∈ valueOpts →
      parse s pre = .ok t →
      parse s (pre ++ [tok]) =
        .exited 1 ("error: unparsed " ++ tok ++ " option\n" ++ t.usage)) ∧
    (∀ (s : Settings) (rest : List String), parse s ("-h" :: rest) = .exited 0 s.usage) ∧
    (∀ (s : Settings) (tok : String) (rest : List String), tok ∉ knownTokens →
      parse s (tok :: rest) =
        .exited 1 ("error: unparsed " ++ tok ++ " option\n" ++ s.usage)) := by
  refine ⟨?_, ?_, ?_⟩
  · intro s t pre tok htok hpre
    rw [parse_append pre s t [tok] hpre]
    simp only [valueOpts, List.mem_cons, List.not_mem_nil, or_false] at htok
    rcases htok with rfl | rfl | rfl | rfl | rfl | rfl | rfl | rfl | rfl | rfl | rfl | rfl | rfl | rfl | rfl | rfl | rfl | rfl | rfl | rfl | rfl | rfl | rfl | rfl | rfl | rfl | rfl | rfl | rfl | rfl | rfl
    all_goals rfl
  · intro s rest
    cases rest with
    | nil => rfl
    | cons v vs => rfl
  · intro s tok rest htok
    cases rest with
    | nil => rw [parse_one, pStep_unknown s tok none htok]
    | cons v vs => rw [parse_cons2, pStep_unknown s tok (some v) htok]

/-- Witness for C10 at a concrete input: a trailing `-seed` with no value
exits with status 1 and the unparsed message. -/
theorem c10_witness :
    parse (defaultSettings "p") ([] ++ ["-seed"]) =
      .exited 1 ("error: unparsed " ++ "-seed" ++ " option\n" ++ (defaultSettings "p").usage) :=
  c10_parse_error_handling.1 (defaultSettings "p") (defaultSettings "p") [] "-seed"
    (by decide) rfl

/-- C4: mode preconditions are validated by terminating.  When the command
line parses but leaves `mdir` falsy the constructor exits with status 1
and the missing-mdir error; and in learning continuation (the model
directory exists, datasets check out) a missing topology file, missing
resolved src or tgt vocabulary file, or missing checkpoint file each makes
`learn` exit with status 1 and the corresponding error message, so no
`Config` is ever returned in these cases. -/
theorem c4_validation_exits :
    (∀ (fs : FS) (prog : String) (rest : List String) (s : Settings),
      parse (defaultSettings prog) rest = .ok s → truthyS s.mdir = false →
      initConfig fs (prog :: rest) = .exited 1 ("error: Missing -mdir option\n" ++ s.usage)) ∧
    (∀ (fs : FS) (s : Settings) (m : String),
      s.mdir = some m →
      fs.checkData s.trn = true →
      (s.dev = none ∨ fs.checkData s.dev = true) →
      fs.pathExists m = true →
      (fs.pathExists (m ++ "/topology") = false →
        learn fs s = .exited 1 ("error: topology file: " ++ m ++ "/topology cannot be find\n")) ∧
      (fs.pathExists (m ++ "/topology") = true →
        fs.pathExists (m ++ "/" ++ srcVocName fs m) = false →
        learn fs s = .exited 1 ("error: vocab src file: " ++ m ++ "/" ++ srcVocName fs m ++
          " cannot be find\n")) ∧
      (fs.pathExists (m ++ "/topology") = true →
        fs.pathExists (m ++ "/" ++ srcVocName fs m) = true →
        fs.pathExists (m ++ "/" ++ tgtVocName fs m) = false →
        learn fs s = .exited 1 ("error: vocab tgt file: " ++ m ++ "/" ++ tgtVocName fs m ++
          " cannot be find\n")) ∧
      (fs.pathExists (m ++ "/topology") = true →
        fs.pathExists (m ++ "/" ++ srcVocName fs m) = true →
        fs.pathExists (m ++ "/" ++ tgtVocName fs m) = true →
        fs.pathExists (m ++ "/checkpoint") = false →
        learn fs s = .exited 1 ("error: checkpoint file: " ++ m ++
          "/checkpoint cannot be find\ndelete dir " ++ m ++ " ???\n"))) := by
  constructor
  · intro fs prog rest s hp hm
    simp only [initConfig]
    rw [hp]
    simp [hm]
  · intro fs s m hm hck hdev hex
    have hms : mdirStr s = m := by simp [mdirStr, hm]
    have hdevG : (match s.dev with | some _ => !(fs.checkData s.dev) | none => false) = false := by
      rcases hdev with hd | hd
      · rw [hd]
      · cases hsd : s.dev
        · rfl
        · rw [hsd] at hd
          simp [hd]
    have hlearn : learn fs s = learnCont fs s := by
      simp [learn, hck, hdevG, hms, hex]
    refine ⟨?_, ?_, ?_, ?_⟩
    · intro h1
      rw [hlearn]
      simp [learnCont, hms, h1]
    · intro h1 h2
      rw [hlearn]
      simp [learnCont, hms, h1, h2]
    · intro h1 h2 h3
      rw [hlearn]
      simp [learnCont, hms, h1, h2, h3]
    · intro h1 h2 h3 h4
      rw [hlearn]
      simp [learnCont, hms, h1, h2, h3, h4]

/-- Witness for C4 at a concrete input: an existing but empty model
directory `d` in learning mode exits with the missing-topology error. -/
theorem c4_witness :
    learn fsBare sLearnCont =
      .exited 1 ("error: topology file: " ++ "d" ++ "/topology cannot be find\n") :=
  (c4_validation_exits.2 fsBare sLearnCont "d" rfl rfl (Or.inl rfl) (by decide)).1 (by decide)

/-- Counterexample to C5 as stated: inference setup and learning setup are
not alternative branches.  In a run with both `-tst` and `-trn`, the final
state shows inference ran (`seq_size` was zeroed; no `-seq_size` was
passed) and learning ran (the continuation message was printed) — one run
performed both setups. -/
theorem c5_counterexample :
    holdsOk (initConfig fsCont ["p", "-mdir", "d", "-tst", "X", "-trn", "T", "-epoch", "3"])
      (fun t effs => t.seq_size == 0 && t.trn == some "T" && t.tst == some "X" &&
        effs == [Eff.print "learning continuation: last epoch is 3"]) = true := by
  rfl

/-- C5 as amended: after a successful parse with truthy `mdir`, the
constructor runs inference setup exactly when `tst` is truthy and then
learning setup exactly when `trn` is (still) truthy — the two setups are
sequential, not alternative: a run with both flags performs both
(inference first), a run with neither performs neither. -/
theorem c5_sequential_dispatch (fs : FS) (prog : String) (rest : List String) (s : Settings)
    (hp : parse (defaultSettings prog) rest = .ok s) (hm : truthyS s.mdir = true) :
    initConfig fs (prog :: rest) =
      PResult.bind (if truthyS s.tst then inference fs s else .ok (s, [])) (fun r1 =>
        PResult.bind (if truthyS r1.1.trn then learn fs r1.1 else .ok (r1.1, [])) (fun r2 =>
          .ok (r2.1, r1.2 ++ r2.2))) := by
  simp only [initConfig]
  rw [hp]
  simp only [hm, not_true_eq_false, if_false, Bool.false_eq_true]
  cases hI : (if truthyS s.tst = true then inference fs s else PResult.ok (s, ([] : List Eff))) with
  | exited c msg => rfl
  | raised => rfl
  | ok r1 =>
    obtain ⟨s1, e1⟩ := r1
    simp only [PResult.bind]
    cases hL : (if truthyS s1.trn = true then learn fs s1 else PResult.ok (s1, ([] : List Eff))) with
    | exited c msg => rfl
    | raised => rfl
    | ok r2 => rfl

/-- Counterexample to C2 as stated: a model directory that exists but
contains no topology/checkpoint does not take the learning-from-scratch
path (no directory creation, no artifacts): the run exits with status 1. -/
theorem c2_counterexample :
    initConfig fsBare ["p", "-mdir", "d", "-trn", "T"] =
      .exited 1 "error: topology file: d/topology cannot be find\n" := rfl

/-- C2 as amended: in learning mode the constructor takes the continuation
path exactly when the model directory exists — requiring its topology and
checkpoint files and creating nothing — and the learning-from-scratch path
exactly when it does not exist, creating the directory and persisting the
topology manifest. -/
theorem c2_branch_on_directory_existence (fs : FS) (s : Settings) (m : String)
    (hm : s.mdir = some m)
    (hck : fs.checkData s.trn = true)
    (hdev : s.dev = none ∨ fs.checkData s.dev = true) :
    (fs.pathExists m = true →
      ∀ t effs, learn fs s = .ok (t, effs) →
        fs.pathExists (m ++ "/topology") = true ∧
        fs.pathExists (m ++ "/checkpoint") = true ∧
        effs = [Eff.print ("learning continuation: last epoch is " ++ toString t.last_epoch)]) ∧
    (fs.pathExists m = false →
      ∀ t effs, learn fs s = .ok (t, effs) →
        Eff.mkdir m ∈ effs ∧
        Eff.writeTopology (m ++ "/topology") (topologyEntries t) ∈ effs) := by
  have hms : mdirStr s = m := by simp [mdirStr, hm]
  constructor
  · intro hex t effs h
    rw [learn_eq_cont fs s m hm hck hdev hex] at h
    obtain ⟨htp, hsv, htv, hcp, s2, _, _, _, _, _, _, hfin⟩ := learnCont_ok fs s t effs h
    rw [hms] at htp hcp hfin
    obtain ⟨p, _, _, heffs⟩ := learnContFinish_ok fs m _ _ s2 t effs hfin
    exact ⟨htp, hcp, heffs⟩
  · intro hex t effs h
    rw [learn_eq_scratch fs s m hm hck hdev hex] at h
    exact scratch_mkdir_write fs s m t effs hm hex h

/-- Witness for C2 at a concrete input: a populated model directory takes
the continuation path, printing the continuation message and creating
nothing. -/
theorem c2_witness :
    fsCont.pathExists ("d" ++ "/topology") = true ∧
    fsCont.pathExists ("d" ++ "/checkpoint") = true ∧
    (okD (learn fsCont sLearnCont)).2 =
      [Eff.print ("learning continuation: last epoch is " ++
        toString (okD (learn fsCont sLearnCont)).1.last_epoch)] :=
  (c2_branch_on_directory_existence fsCont sLearnCont "d" rfl rfl (Or.inl rfl)).1
    (by decide) (okD (learn fsCont sLearnCont)).1 (okD (learn fsCont sLearnCont)).2 rfl

/-- Counterexample to C3 as stated: a completed learning-from-scratch run
whose topology file records the `mode` setting, which is neither
src/tgt-prefixed nor the aggregation operation. -/
theorem c3_counterexample :
    holdsOk (learn fsScratch sScratch)
      (fun t effs => effs.any (fun e =>
        match e with
        | Eff.writeTopology _ entries => entries.contains ("mode", "alignment")
        | _ => false)) = true ∧
    pyStartswith "mode" "src" = false ∧ pyStartswith "mode" "tgt" = false ∧ "mode" ≠ "aggr" :=
  ⟨rfl, rfl, rfl, by decide⟩

/-- C3 as amended: the topology file written by a completed
learning-from-scratch run contains exactly the settings whose names are
prefixed `src` or `tgt`, plus the aggregation operation and the mode, and
no other setting. -/
theorem c3_topology_file_contents (fs : FS) (s : Settings) (m : String) (t : Settings)
    (effs : List Eff)
    (hm : s.mdir = some m)
    (hck : fs.checkData s.trn = true)
    (hdev : s.dev = none ∨ fs.checkData s.dev = true)
    (hscr : fs.pathExists m = false)
    (h : learn fs s = .ok (t, effs)) :
    Eff.writeTopology (m ++ "/topology") (topologyEntries t) ∈ effs ∧
    (topologyEntries t).map Prod.fst =
      ["src_voc", "src_tok", "tgt_voc", "tgt_tok", "src_emb", "tgt_emb",
       "src_voc_size", "tgt_voc_size", "src_emb_size", "tgt_emb_size",
       "src_lstm_size", "tgt_lstm_size", "aggr", "mode"] ∧
    attrNames.filter topoCond = (topologyEntries t).map Prod.fst := by
  rw [learn_eq_scratch fs s m hm hck hdev hscr] at h
  refine ⟨(scratch_mkdir_write fs s m t effs hm hscr h).2, ?_, ?_⟩
  · rw [topologyEntries_names]
    decide
  · rw [topologyEntries_names]

/-- Witness for C3 at a concrete input: the scratch run over `fsScratch`
writes the topology manifest with exactly the filtered attribute names. -/
theorem c3_witness :
    Eff.writeTopology ("d" ++ "/topology") (topologyEntries (okD (learn fsScratch sScratch)).1)
      ∈ (okD (learn fsScratch sScratch)).2 ∧
    (topologyEntries (okD (learn fsScratch sScratch)).1).map Prod.fst =
      ["src_voc", "src_tok", "tgt_voc", "tgt_tok", "src_emb", "tgt_emb",
       "src_voc_size", "tgt_voc_size", "src_emb_size", "tgt_emb_size",
       "src_lstm_size", "tgt_lstm_size", "aggr", "mode"] ∧
    attrNames.filter topoCond = (topologyEntries (okD (learn fsScratch sScratch)).1).map Prod.fst :=
  c3_topology_file_contents fsScratch sScratch "d" (okD (learn fsScratch sScratch)).1
    (okD (learn fsScratch sScratch)).2 rfl rfl (Or.inl rfl) (by decide) rfl

/-- Witness for C5 at a concrete input (`-mdir d`, neither `-tst` nor
`-trn`). -/
theorem c5_witness :
    initConfig fsCont ["p", "-mdir", "d"] =
      PResult.bind
        (if truthyS ({defaultSettings "p" with mdir := some "d"} : Settings).tst
          then inference fsCont {defaultSettings "p" with mdir := some "d"}
          else .ok ({defaultSettings "p" with mdir := some "d"}, []))
        (fun r1 =>
          PResult.bind (if truthyS r1.1.trn then learn fsCont r1.1 else .ok (r1.1, [])) (fun r2 =>
            .ok (r2.1, r1.2 ++ r2.2))) :=
  c5_sequential_dispatch fsCont "p" ["-mdir", "d"]
    {defaultSettings "p" with mdir := some "d"} rfl rfl

/-- C9: inference setup unconditionally sets `dropout` to 0.0 and
`seq_size` to 0 before anything else, and no later step of inference setup
restores them (the topology file records only architecture options), so
every completed inference configuration has `dropout = 0` and
`seq_size = 0`. -/
theorem c9_inference_zeroes (fs : FS) (s t : Settings) (effs : List Eff) (m : String)
    (hm : s.mdir = some m)
    (hnames : ∀ p ∈ fs.topology (m ++ "/topology"), p.1 ∈ topoNames)
    (h : inference fs s = .ok (t, effs)) :
    t.dropout = 0 ∧ t.seq_size = 0 := by
  have hms : mdirStr s = m := by simp [mdirStr, hm]
  obtain ⟨s1, s2, p, h1, h2, hp, htEq, _⟩ := inference_ok fs s t effs h
  rw [hms] at h1 h2 hp
  obtain ⟨hd1, hs1, _, _, _, _⟩ := resolveEpoch_pres fs m _ s1 h1
  obtain ⟨hd2, hs2, _, _, _⟩ := inferMid_ok fs m s1 s2 h2
  obtain ⟨_, hdp, hsp, _, _, _⟩ := topo_parse_pres (fs.topology (m ++ "/topology")) s2 p hnames hp
  subst htEq
  constructor
  · show p.dropout = 0
    rw [hdp, hd2, hd1]
  · show p.seq_size = 0
    rw [hsp, hs2, hs1]

/-- Witness for C9 at a concrete input. -/
theorem c9_witness :
    (okD (inference fsCont sInfA)).1.dropout = 0 ∧
      (okD (inference fsCont sInfA)).1.seq_size = 0 :=
  c9_inference_zeroes fsCont sInfA (okD (inference fsCont sInfA)).1
    (okD (inference fsCont sInfA)).2 "d" rfl (by decide) rfl

/-- C8: when `-epoch` is not given (falsy), the epoch used for inference
and the `last_epoch` recorded for continuation is the largest
`1 ≤ e ≤ 999` whose `epoch{e}.index` exists in the model directory; an
epoch of 1000 or more is never selected (the search starts at 999); and in
inference, when no such epoch exists, the program writes an error and
exits with status 1. -/
theorem c8_epoch_selection :
    (∀ (fs : FS) (m : String) (e : Nat), findEpochDown fs m 999 = some e →
      1 ≤ e ∧ e ≤ 999 ∧ fs.pathExists (epochIndexPath m e) = true ∧
        ∀ e', e < e' → e' ≤ 999 → fs.pathExists (epochIndexPath m e') = false) ∧
    (∀ (fs : FS) (m : String), findEpochDown fs m 999 = none →
      ∀ e, 1 ≤ e → e ≤ 999 → fs.pathExists (epochIndexPath m e) = false) ∧
    (∀ (fs : FS) (s : Settings) (m : String), s.mdir = some m →
      truthyI s.epoch = false → findEpochDown fs m 999 = none →
      inference fs s = .exited 1 ("error: Cannot find epoch in mdir " ++ quo ++ m ++ quo ++
        "\n" ++ s.usage)) ∧
    (∀ (fs : FS) (s : Settings) (m : String) (e : Nat) (t : Settings) (effs : List Eff),
      s.mdir = some m → truthyI s.epoch = false →
      (∀ p ∈ fs.topology (m ++ "/topology"), p.1 ∈ topoNames) →
      findEpochDown fs m 999 = some e →
      inference fs s = .ok (t, effs) → t.epoch = some (e : Int)) ∧
    (∀ (fs : FS) (s : Settings) (m : String) (e : Nat) (t : Settings) (effs : List Eff),
      s.mdir = some m → fs.checkData s.trn = true →
      (s.dev = none ∨ fs.checkData s.dev = true) →
      fs.pathExists m = true →
      findEpochDown fs m 999 = some e →
      learn fs s = .ok (t, effs) → t.last_epoch = (e : Int)) := by
  refine ⟨?_, ?_, ?_, ?_, ?_⟩
  · exact fun fs m e he => (findEpochDown_spec fs m 999).1 e he
  · exact fun fs m hn => (findEpochDown_spec fs m 999).2 hn
  · intro fs s m hm hep hfind
    have hms : mdirStr s = m := by simp [mdirStr, hm]
    have hre : resolveEpoch fs (mdirStr s) {s with dropout := 0, seq_size := 0} =
        .exited 1 ("error: Cannot find epoch in mdir " ++ quo ++ m ++ quo ++ "\n" ++ s.usage) := by
      rw [hms]
      simp [resolveEpoch, hep, hfind]
    simp only [inference, hre]
    rfl
  · intro fs s m e t effs hm hep hnames hfind h
    have hms : mdirStr s = m := by simp [mdirStr, hm]
    obtain ⟨s1, s2, p, h1, h2, hp, htEq, _⟩ := inference_ok fs s t effs h
    rw [hms] at h1 h2 hp
    rcases resolveEpoch_ok fs m _ s1 h1 with ⟨ht, _⟩ | ⟨_, e', hfind', hs1⟩
    · rw [show ({s with dropout := 0, seq_size := 0} : Settings).epoch = s.epoch from rfl] at ht
      rw [hep] at ht
      cases ht
    · rw [hfind] at hfind'
      injection hfind' with he'
      subst he'
      obtain ⟨_, _, hep2, _, _⟩ := inferMid_ok fs m s1 s2 h2
      obtain ⟨hpe, _, _, _, _, _⟩ := topo_parse_pres (fs.topology (m ++ "/topology")) s2 p hnames hp
      subst htEq
      show p.epoch = some (e : Int)
      rw [hpe, hep2, hs1]
  · intro fs s m e t effs hm hck hdev hex hfind h
    have hms : mdirStr s = m := by simp [mdirStr, hm]
    rw [learn_eq_cont fs s m hm hck hdev hex] at h
    obtain ⟨_, _, _, _, s2, _, _, _, _, _, _, hfin⟩ := learnCont_ok fs s t effs h
    rw [hms] at hfin
    obtain ⟨p, _, htEq, _⟩ := learnContFinish_ok fs m _ _ s2 t effs hfin
    rw [hfind] at htEq
    subst htEq
    rfl

/-- Witness for C8 at a concrete input: continuation over a directory
whose largest checkpoint is `epoch3.index` records `last_epoch = 3`. -/
theorem c8_witness :
    (okD (learn fsCont sLearnCont)).1.last_epoch = ((3 : Nat) : Int) :=
  c8_epoch_selection.2.2.2.2 fsCont sLearnCont "d" 3 (okD (learn fsCont sLearnCont)).1
    (okD (learn fsCont sLearnCont)).2 rfl rfl (Or.inl rfl) (by decide) rfl rfl

/-- C6: every learning-from-scratch run that completes creates the model
directory and copies in the vocabulary artifacts (under the tokenizer's
vocabulary name when `-src_tok`/`-tgt_tok` is given, else as
`vocab_src`/`vocab_tgt`), copies the tokenization JSON as
`tokenization_src.json`/`tokenization_tgt.json` exactly when the
corresponding option was given, writes the topology manifest, and sets
`src_voc_size`/`tgt_voc_size` from the loaded vocabulary lengths and
`src_emb_size`/`tgt_emb_size` from the embedding dimensions. The two
sanity hypotheses rule out a tokenizer config whose vocabulary file is
literally named like the other side's tokenization JSON. -/
theorem c6_scratch_artifacts (fs : FS) (s : Settings) (m : String) (t : Settings) (effs : List Eff)
    (hm : s.mdir = some m)
    (hck : fs.checkData s.trn = true)
    (hdev : s.dev = none ∨ fs.checkData s.dev = true)
    (hscr : fs.pathExists m = false)
    (h : learn fs s = .ok (t, effs))
    (hsane1 : truthyS t.tgt_tok = true → tokVocD t.tok_tgt ≠ "tokenization_src.json")
    (hsane2 : truthyS t.src_tok = true → tokVocD t.tok_src ≠ "tokenization_tgt.json") :
    Eff.mkdir m ∈ effs ∧
    (truthyS t.src_tok = true →
      ∃ tk, t.tok_src = some tk ∧
        Eff.copy t.src_voc (m ++ "/" ++ tk.vocabulary) ∈ effs ∧
        Eff.copy t.src_tok (m ++ "/tokenization_src.json") ∈ effs) ∧
    (truthyS t.src_tok = false →
      Eff.copy t.src_voc (m ++ "/vocab_src") ∈ effs ∧
      ∀ src, Eff.copy src (m ++ "/tokenization_src.json") ∉ effs) ∧
    (truthyS t.tgt_tok = true →
      ∃ tk, t.tok_tgt = some tk ∧
        Eff.copy t.tgt_voc (m ++ "/" ++ tk.vocabulary) ∈ effs ∧
        Eff.copy t.tgt_tok (m ++ "/tokenization_tgt.json") ∈ effs) ∧
    (truthyS t.tgt_tok = false →
      Eff.copy t.tgt_voc (m ++ "/vocab_tgt") ∈ effs ∧
      ∀ src, Eff.copy src (m ++ "/tokenization_tgt.json") ∉ effs) ∧
    Eff.writeTopology (m ++ "/topology") (topologyEntries t) ∈ effs ∧
    (∃ k, fs.vocabLen t.src_voc = some k ∧ t.src_voc_size = some k) ∧
    (∃ k, fs.vocabLen t.tgt_voc = some k ∧ t.tgt_voc_size = some k) ∧
    (∃ d, fs.embedDim t.src_emb s.src_emb_size = some d ∧ t.src_emb_size = some d) ∧
    (∃ d, fs.embedDim t.tgt_emb s.tgt_emb_size = some d ∧ t.tgt_emb_size = some d) := by
  have hms : mdirStr s = m := by simp [mdirStr, hm]
  rw [learn_eq_scratch fs s m hm hck hdev hscr] at h
  obtain ⟨s1, s2, lenS, lenT, dS, dT, h1, hv1, h2, hv2, hd1, hd2, htEq, heffs⟩ :=
    learnScratch_ok fs s t effs h
  rw [hms] at heffs
  obtain ⟨a1, a2, a3, a4, a5, a6, a7, a8, a9, aPos, aNeg⟩ := srcTokStep_ok fs s s1 h1
  obtain ⟨b1, b2, b3, b4, b5, b6, b7, b8, b9, b10, bPos, bNeg⟩ := tgtTokStep_ok fs _ s2 h2
  have b1' : s2.tgt_tok = s1.tgt_tok := b1
  have b2' : s2.src_tok = s1.src_tok := b2
  have b3' : s2.src_voc = s1.src_voc := b3
  have b4' : s2.tok_src = s1.tok_src := b4
  have b5' : s2.src_emb = s1.src_emb := b5
  have b6' : s2.tgt_emb = s1.tgt_emb := b6
  have b7' : s2.src_emb_size = s1.src_emb_size := b7
  have b8' : s2.tgt_emb_size = s1.tgt_emb_size := b8
  have bPos' : truthyS s1.tgt_tok = true → s2.tok_tgt = some (fs.tokJson (s1.tgt_tok.getD "")) := bPos
  have bNeg' : truthyS s1.tgt_tok = false → s2.tok_tgt = none := bNeg
  have hsrc_tok : s2.src_tok = s.src_tok := b2'.trans a1
  have htgt_tok : s2.tgt_tok = s.tgt_tok := b1'.trans a2
  subst htEq
  subst heffs
  have hT1 : truthyS s2.tgt_tok = true → tokVocD s2.tok_tgt ≠ "tokenization_src.json" := hsane1
  have hT2 : truthyS s2.src_tok = true → tokVocD s2.tok_src ≠ "tokenization_tgt.json" := hsane2
  have hassoc1 : m ++ "/tokenization_src.json" = m ++ "/" ++ "tokenization_src.json" := by
    rw [String.append_assoc]; rfl
  have hassoc2 : m ++ "/tokenization_tgt.json" = m ++ "/" ++ "tokenization_tgt.json" := by
    rw [String.append_assoc]; rfl
  refine ⟨?_, ?_, ?_, ?_, ?_, ?_, ?_, ?_, ?_, ?_⟩
  · simp [hscr]
  · intro hT
    have hTs : truthyS s.src_tok = true := by rw [← hsrc_tok]; exact hT
    have htok : s2.tok_src = some (fs.tokJson (s.src_tok.getD "")) :=
      b4'.trans (aPos hTs)
    refine ⟨fs.tokJson (s.src_tok.getD ""), htok, ?_, ?_⟩
    · simp [hscr, hTs, htok, tokVocD, hsrc_tok]
    · simp [hscr, hTs, hsrc_tok]
  · intro hF
    have hFb : truthyS s2.src_tok = false := hF
    constructor
    · simp [hscr, hFb]
    · intro src hmem
      by_cases hTt : truthyS s2.tgt_tok = true
      · simp [hscr, hFb, hTt] at hmem
        rcases hmem with ⟨_, hd⟩ | ⟨_, hd⟩ | ⟨_, hd⟩
        · exact strApp_ne m "/tokenization_src.json" "/vocab_src" (by decide) hd
        · rw [hassoc1] at hd
          exact strApp_ne (m ++ "/") "tokenization_src.json" (tokVocD s2.tok_tgt)
            (fun e => (hT1 hTt) e.symm) hd
        · exact strApp_ne m "/tokenization_src.json" "/tokenization_tgt.json" (by decide) hd
      · have hFt : truthyS s2.tgt_tok = false := by simpa using hTt
        simp [hscr, hFb, hFt] at hmem
        rcases hmem with ⟨_, hd⟩ | ⟨_, hd⟩
        · exact strApp_ne m "/tokenization_src.json" "/vocab_src" (by decide) hd
        · exact strApp_ne m "/tokenization_src.json" "/vocab_tgt" (by decide) hd
  · intro hT
    have hTs : truthyS s1.tgt_tok = true := by rw [a2, ← htgt_tok]; exact hT
    have htok : s2.tok_tgt = some (fs.tokJson (s1.tgt_tok.getD "")) := bPos' hTs
    refine ⟨fs.tokJson (s1.tgt_tok.getD ""), htok, ?_, ?_⟩
    · have hTb : truthyS s2.tgt_tok = true := hT
      simp [hscr, hTb, htok, tokVocD]
    · have hTb : truthyS s2.tgt_tok = true := hT
      simp [hscr, hTb]
  · intro hF
    have hFb : truthyS s2.tgt_tok = false := hF
    constructor
    · simp [hscr, hFb]
    · intro src hmem
      by_cases hTs : truthyS s2.src_tok = true
      · simp [hscr, hFb, hTs] at hmem
        rcases hmem with ⟨_, hd⟩ | ⟨_, hd⟩ | ⟨_, hd⟩
        · rw [hassoc2] at hd
          exact strApp_ne (m ++ "/") "tokenization_tgt.json" (tokVocD s2.tok_src)
            (fun e => (hT2 hTs) e.symm) hd
        · exact strApp_ne m "/tokenization_tgt.json" "/tokenization_src.json" (by decide) hd
        · exact strApp_ne m "/tokenization_tgt.json" "/vocab_tgt" (by decide) hd
      · have hFs : truthyS s2.src_tok = false := by simpa using hTs
        simp [hscr, hFs, hFb] at hmem
        rcases hmem with ⟨_, hd⟩ | ⟨_, hd⟩
        · exact strApp_ne m "/tokenization_tgt.json" "/vocab_src" (by decide) hd
        · exact strApp_ne m "/tokenization_tgt.json" "/vocab_tgt" (by decide) hd
  · simp [hscr]
  · refine ⟨lenS, ?_, rfl⟩
    show fs.vocabLen s2.src_voc = some lenS
    rw [b3']
    exact hv1
  · exact ⟨lenT, hv2, rfl⟩
  · refine ⟨dS, ?_, rfl⟩
    show fs.embedDim s2.src_emb s.src_emb_size = some dS
    rw [← a7, ← b7']
    exact hd1
  · refine ⟨dT, ?_, rfl⟩
    show fs.embedDim s2.tgt_emb s.tgt_emb_size = some dT
    rw [← a8, ← b8']
    exact hd2

/-- Witness for C6 at a concrete input: the scratch run over `fsScratch`
creates the directory, copies `vocab_src`, and records the vocabulary
length. -/
theorem c6_witness :
    Eff.mkdir "d" ∈ (okD (learn fsScratch sScratch)).2 ∧
    Eff.copy (okD (learn fsScratch sScratch)).1.src_voc ("d" ++ "/vocab_src")
      ∈ (okD (learn fsScratch sScratch)).2 ∧
    (∃ k, fsScratch.vocabLen (okD (learn fsScratch sScratch)).1.src_voc = some k ∧
      (okD (learn fsScratch sScratch)).1.src_voc_size = some k) := by
  have H := c6_scratch_artifacts fsScratch sScratch "d" (okD (learn fsScratch sScratch)).1
    (okD (learn fsScratch sScratch)).2 rfl rfl (Or.inl rfl) (by decide) rfl
    (by decide) (by decide)
  exact ⟨H.1, (H.2.2.1 (by decide)).1, H.2.2.2.2.2.2.1⟩

/-- C1: for every inference run and every learning-continuation run over a
model directory, the final value of every option recorded in the
directory's topology file is determined by the topology file alone —
two runs over the same environment, whatever their command-line settings,
end with the same value for each recorded option, because the topology
file is re-parsed after the command line. -/
theorem c1_topology_overrides :
    (∀ (fs : FS) (s₁ s₂ t₁ t₂ : Settings) (e₁ e₂ : List Eff) (m : String),
      s₁.mdir = some m → s₂.mdir = some m →
      (∀ p ∈ fs.topology (m ++ "/topology"), p.1 ∈ topoNames) →
      inference fs s₁ = .ok (t₁, e₁) → inference fs s₂ = .ok (t₂, e₂) →
      ∀ n ∈ (fs.topology (m ++ "/topology")).map Prod.fst,
        optView n t₁ = optView n t₂) ∧
    (∀ (fs : FS) (s₁ s₂ t₁ t₂ : Settings) (e₁ e₂ : List Eff) (m : String),
      s₁.mdir = some m → s₂.mdir = some m →
      (∀ p ∈ fs.topology (m ++ "/topology"), p.1 ∈ topoNames) →
      fs.pathExists m = true →
      learn fs s₁ = .ok (t₁, e₁) → learn fs s₂ = .ok (t₂, e₂) →
      ∀ n ∈ (fs.topology (m ++ "/topology")).map Prod.fst,
        optView n t₁ = optView n t₂) := by
  constructor
  · intro fs s₁ s₂ t₁ t₂ e₁ e₂ m hm₁ hm₂ hnames h₁ h₂ n hn
    have hms₁ : mdirStr s₁ = m := by simp [mdirStr, hm₁]
    have hms₂ : mdirStr s₂ = m := by simp [mdirStr, hm₂]
    obtain ⟨a1, a2, p₁, _, _, hp₁, ht₁, _⟩ := inference_ok fs s₁ t₁ e₁ h₁
    obtain ⟨b1, b2, p₂, _, _, hp₂, ht₂, _⟩ := inference_ok fs s₂ t₂ e₂ h₂
    rw [hms₁] at hp₁
    rw [hms₂] at hp₂
    have hagree : optView n p₁ = optView n p₂ :=
      topo_parse_agree (fs.topology (m ++ "/topology")) a2 b2 p₁ p₂ hnames hp₁ hp₂ n
        (Or.inl hn)
    have hv₁ : optView n t₁ = optView n p₁ := by rw [ht₁]; exact optView_voc n p₁ _ _
    have hv₂ : optView n t₂ = optView n p₂ := by rw [ht₂]; exact optView_voc n p₂ _ _
    rw [hv₁, hv₂]
    exact hagree
  · intro fs s₁ s₂ t₁ t₂ e₁ e₂ m hm₁ hm₂ hnames hex h₁ h₂ n hn
    have hms₁ : mdirStr s₁ = m := by simp [mdirStr, hm₁]
    have hms₂ : mdirStr s₂ = m := by simp [mdirStr, hm₂]
    simp only [learn] at h₁ h₂
    rw [hms₁] at h₁
    rw [hms₂] at h₂
    split_ifs at h₁ with hc1 hd1 he1
    all_goals try cases h₁
    all_goals try exact absurd hex he1
    split_ifs at h₂ with hc2 hd2 he2
    all_goals try cases h₂
    all_goals try exact absurd hex he2
    obtain ⟨_, _, _, _, u₁, _, _, _, _, _, _, hfin₁⟩ := learnCont_ok fs s₁ t₁ e₁ h₁
    obtain ⟨_, _, _, _, u₂, _, _, _, _, _, _, hfin₂⟩ := learnCont_ok fs s₂ t₂ e₂ h₂
    rw [hms₁] at hfin₁
    rw [hms₂] at hfin₂
    obtain ⟨p₁, hp₁, ht₁, _⟩ := learnContFinish_ok fs m _ _ u₁ t₁ e₁ hfin₁
    obtain ⟨p₂, hp₂, ht₂, _⟩ := learnContFinish_ok fs m _ _ u₂ t₂ e₂ hfin₂
    have hagree : optView n p₁ = optView n p₂ :=
      topo_parse_agree (fs.topology (m ++ "/topology")) u₁ u₂ p₁ p₂ hnames hp₁ hp₂ n
        (Or.inl hn)
    have hv₁ : optView n t₁ = optView n p₁ := by
      rw [ht₁]
      cases hf : findEpochDown fs m 999
      · exact optView_voc n p₁ _ _
      · exact optView_voc_epoch n p₁ _ _ _
    have hv₂ : optView n t₂ = optView n p₂ := by
      rw [ht₂]
      cases hf : findEpochDown fs m 999
      · exact optView_voc n p₂ _ _
      · exact optView_voc_epoch n p₂ _ _ _
    rw [hv₁, hv₂]
    exact hagree

/-- Witness for C1 at a concrete input: two inference runs over the same
directory, one with command-line overrides `-aggr max -src_lstm_size 999`
for topology-recorded options, end with the same `aggr` value. -/
theorem c1_witness :
    optView "aggr" (okD (inference fsCont sInfA)).1
      = optView "aggr" (okD (inference fsCont sInfB)).1 :=
  c1_topology_overrides.1 fsCont sInfA sInfB (okD (inference fsCont sInfA)).1
    (okD (inference fsCont sInfB)).1 (okD (inference fsCont sInfA)).2
    (okD (inference fsCont sInfB)).2 "d" rfl rfl (by decide) rfl rfl "aggr" (by decide)

end Claims

end Similarity
